import Mathlib

/-!
Verification of the DICOM metadata extractor against its specification.

The development shallowly embeds the metadata-tree flattener
(`CImage.extract_dicom_metadata` / `_walk` in `dcm_parser_cimage.py`),
the instance constructor `CImage.__init__` (summary capture, validity
classification, anonymization passes), the summary extractor
`CImage.get_patient_and_physician`, and the series-grouping and
pseudo-identifier logic of `parse_study_dirs` in
`dcm_parser_main_extended.py`.
-/

/-! ## Element model for the flattener

`extract_dicom_metadata` walks a pydicom `Dataset`: a list of data
elements, each with a tag (group, element), a VR code, a keyword, a
name, and a value.  A sequence-typed (VR = "SQ") element's value is a
list of items, each item itself a dataset.  `FVal.iterErr` models a
sequence value whose child iteration raises an error (the
`except Exception` branch of `_walk`). -/

mutual

inductive FVal : Type where
  | scalar : String → FVal
  | multi : List String → FVal
  | items : List (List FElem) → FVal
  | iterErr : String → FVal

inductive FElem : Type where
  | mk : Nat → Nat → String → String → String → FVal → FElem

end

/-- Group number of an element (first tag component). -/
def FElem.group : FElem → Nat
  | .mk g _ _ _ _ _ => g

/-- Element number of an element (second tag component). -/
def FElem.elem : FElem → Nat
  | .mk _ e _ _ _ _ => e

/-- VR code of an element. -/
def FElem.vr : FElem → String
  | .mk _ _ v _ _ _ => v

/-- DICOM keyword of an element (empty when unknown). -/
def FElem.keyword : FElem → String
  | .mk _ _ _ k _ _ => k

/-- DICOM name of an element (empty when unknown). -/
def FElem.name : FElem → String
  | .mk _ _ _ _ n _ => n

/-- Value of an element. -/
def FElem.val : FElem → FVal
  | .mk _ _ _ _ _ v => v

/-- One flattened output row of `extract_dicom_metadata` (the dict
appended to `results`). -/
structure TagRecord where
  path : String
  tag : String
  group : Nat
  element : Nat
  vr : String
  name : String
  keyword : String
  value : String
  vm : Nat
  isPrivate : Bool
deriving DecidableEq, Repr

/-- Upper-case hexadecimal digit, as produced by Python's `%X` format. -/
def hexDigit (n : Nat) : Char :=
  if n < 10 then Char.ofNat (48 + n) else Char.ofNat (55 + n)

/-- Four-digit zero-padded upper-case hexadecimal rendering (`{:04X}`). -/
def toHex4 (n : Nat) : String :=
  String.mk [hexDigit (n / 4096 % 16), hexDigit (n / 256 % 16),
             hexDigit (n / 16 % 16), hexDigit (n % 16)]

/-- Models `_format_tag`, Python format `(GGGG,EEEE)` in upper-case
zero-padded hex. -/
def formatTag (g e : Nat) : String :=
  "(" ++ toHex4 g ++ "," ++ toHex4 e ++ ")"

/-- Models `_is_private`: private tags have an odd group id. -/
def isPrivateTag (g : Nat) : Bool :=
  g % 2 == 1

/-- Value multiplicity (`elem.VM`): 1 for a single value, the length
for a multi-value, the item count for a sequence. -/
def vmOf : FVal → Nat
  | .scalar _ => 1
  | .multi ss => ss.length
  | .items its => its.length
  | .iterErr _ => 0

/-- Truncation step at the end of `_value_to_str`:
`s[:max_value_length] + "…"` when the string is too long. -/
def truncateVal (maxLen : Nat) (s : String) : String :=
  if s.length > maxLen then (s.take maxLen).push '…' else s

/-- Models `_value_to_str`: `"<Sequence>"` for VR "SQ", `"<PixelData omitted>"`
for the pixel-data tag when pixel data is excluded, otherwise the
stringified value (multi-values joined with `", "`), truncated to
`maxLen`.  A value whose access raises yields the `<unprintable: …>`
branch.  (Sequence items under a non-"SQ" VR do not occur in decoded
datasets; they stringify to the placeholder.) -/
def valueToStr (includePixelData : Bool) (maxLen : Nat) (e : FElem) : String :=
  if e.vr == "SQ" then "<Sequence>"
  else if e.group == 0x7FE0 && e.elem == 0x0010 && !includePixelData then
    "<PixelData omitted>"
  else
    truncateVal maxLen
      (match e.val with
       | .scalar s => s
       | .multi ss => String.intercalate ", " ss
       | .items _ => "<Sequence>"
       | .iterErr err => "<unprintable: " ++ err ++ ">")

/-- Models `_name_or_keyword`: the name, else the keyword, else empty. -/
def nameOrKeyword (e : FElem) : String :=
  if e.name ≠ "" then e.name else e.keyword

/-- Path component of one element: `_keyword(elem) or
_name_or_keyword(elem) or _format_tag(elem.tag)`. -/
def pathPart (e : FElem) : String :=
  if e.keyword ≠ "" then e.keyword
  else if nameOrKeyword e ≠ "" then nameOrKeyword e
  else formatTag e.group e.elem

/-- The record `_walk` appends for one visited element (the `entry`
dict), before any recursion into sequence items. -/
def mkEntry (includePixelData : Bool) (maxLen : Nat) (base : String)
    (e : FElem) : TagRecord :=
  { path := (if base ≠ "" then base ++ "." else "") ++ pathPart e
    tag := formatTag e.group e.elem
    group := e.group
    element := e.elem
    vr := e.vr
    name := nameOrKeyword e
    keyword := e.keyword
    value := if e.group == 0x7FE0 && e.elem == 0x0010 && !includePixelData
             then "<PixelData omitted>"
             else valueToStr includePixelData maxLen e
    vm := vmOf e.val
    isPrivate := isPrivateTag e.group }

mutual

/-- Models `_walk` over the elements of one dataset: private elements are
skipped (with their subtrees) when `incP` is false; every other
element contributes its records in order. -/
def walkElems (incP incPix : Bool) (maxLen : Nat) (base : String) :
    List FElem → List TagRecord
  | [] => []
  | e :: rest =>
      walkOne incP incPix maxLen base e ++ walkElems incP incPix maxLen base rest

/-- Records contributed by a single element: nothing when it is skipped
as private; otherwise the `entry` record followed, for a "SQ" element,
by the records of its items — or by the one synthetic
`<sequence read error: …>` record when iterating the items raises. -/
def walkOne (incP incPix : Bool) (maxLen : Nat) (base : String) :
    FElem → List TagRecord
  | .mk g el vr kw nm v =>
    if isPrivateTag g && !incP then []
    else
      let entry := mkEntry incPix maxLen base (.mk g el vr kw nm v)
      entry ::
        (if vr == "SQ" then
          match v with
          | .items its => walkItems incP incPix maxLen entry.path 0 its
          | .iterErr err =>
              [{ entry with value := "<sequence read error: " ++ err ++ ">" }]
          | _ => []
         else [])

/-- Recursion of `_walk` over the items of a sequence element: item `i`
is walked with base path `path[i]`. -/
def walkItems (incP incPix : Bool) (maxLen : Nat) (p : String) (i : Nat) :
    List (List FElem) → List TagRecord
  | [] => []
  | item :: rest =>
      walkElems incP incPix maxLen (p ++ "[" ++ toString i ++ "]") item
        ++ walkItems incP incPix maxLen p (i + 1) rest

end

/-- Models `extract_dicom_metadata`: walk the whole dataset from the empty
base path. -/
def extract_dicom_metadata (incP incPix : Bool) (maxLen : Nat)
    (ds : List FElem) : List TagRecord :=
  walkElems incP incPix maxLen "" ds

mutual

/-- Number of visited (non-skipped) nodes of a dataset. -/
def visitElems (incP : Bool) : List FElem → Nat
  | [] => 0
  | e :: rest => visitOne incP e + visitElems incP rest

/-- Number of visited nodes contributed by one element: 0 when skipped
as private, else 1 plus the visited nodes of its items (for a
well-iterable "SQ" element). -/
def visitOne (incP : Bool) : FElem → Nat
  | .mk g _ vr _ _ v =>
    if isPrivateTag g && !incP then 0
    else
      1 + (if vr == "SQ" then
            match v with
            | .items its => visitItems incP its
            | _ => 0
           else 0)

/-- Number of visited nodes of a list of sequence items. -/
def visitItems (incP : Bool) : List (List FElem) → Nat
  | [] => 0
  | item :: rest => visitElems incP item + visitItems incP rest

end

mutual

/-- Number of malformed-sequence subtrees encountered in a dataset. -/
def errElems (incP : Bool) : List FElem → Nat
  | [] => 0
  | e :: rest => errOne incP e + errElems incP rest

/-- Malformed-sequence subtrees contributed by one element: 1 for a
visited "SQ" element whose iteration raises, plus those of the items
of a visited well-formed "SQ" element. -/
def errOne (incP : Bool) : FElem → Nat
  | .mk g _ vr _ _ v =>
    if isPrivateTag g && !incP then 0
    else
      if vr == "SQ" then
        match v with
        | .items its => errItems incP its
        | .iterErr _ => 1
        | _ => 0
      else 0

/-- Malformed-sequence subtrees of a list of sequence items. -/
def errItems (incP : Bool) : List (List FElem) → Nat
  | [] => 0
  | item :: rest => errElems incP item + errItems incP rest

end

/-! ## Dataset model for the instance constructor

`CImage.__init__` and `get_patient_and_physician` read and mutate a
pydicom dataset through tag lookups (`self.data[(g,e)]`), membership
tests, attribute access by keyword, and nested sequence access
(`._value._list[0][tag]`).  `AVal` models the element values these code
paths touch: plain strings, string lists (the image-type triple),
numbers and number lists (positions, spacings), and sequences of
items. -/

mutual

inductive AVal : Type where
  | str : String → AVal
  | strs : List String → AVal
  | num : Rat → AVal
  | nums : List Rat → AVal
  | seq : List ADataset → AVal

inductive ADataset : Type where
  | mk : List AEntry → ADataset

inductive AEntry : Type where
  | mk : Nat → Nat → AVal → AEntry

end

/-- Group id of a dataset entry. -/
def AEntry.g : AEntry → Nat
  | .mk g _ _ => g

/-- Element id of a dataset entry. -/
def AEntry.e : AEntry → Nat
  | .mk _ e _ => e

/-- Value of a dataset entry. -/
def AEntry.v : AEntry → AVal
  | .mk _ _ v => v

/-- Entry list of a dataset. -/
def ADataset.entries : ADataset → List AEntry
  | .mk l => l

/-- Membership of a tag in an entry list. -/
def containsTag : List AEntry → Nat → Nat → Bool
  | [], _, _ => false
  | .mk a b _ :: rest, g, e => (a == g && b == e) || containsTag rest g e

/-- First value stored under a tag in an entry list. -/
def lookupTag : List AEntry → Nat → Nat → Option AVal
  | [], _, _ => none
  | .mk a b v :: rest, g, e =>
      if a == g && b == e then some v else lookupTag rest g e

/-- In-place value overwrite of every entry carrying a tag. -/
def setTag : List AEntry → Nat → Nat → AVal → List AEntry
  | [], _, _, _ => []
  | .mk a b w :: rest, g, e, v =>
      (if a == g && b == e then .mk g e v else .mk a b w) :: setTag rest g e v

/-- Membership test `(g,e) in self.data`. -/
def ADataset.contains (d : ADataset) (g e : Nat) : Bool :=
  containsTag d.entries g e

/-- Tag lookup `self.data[(g,e)].value`, `none` when the tag is absent
(pydicom raises `KeyError`). -/
def ADataset.get (d : ADataset) (g e : Nat) : Option AVal :=
  lookupTag d.entries g e

/-- Value overwrite `self.data[(g,e)].value = v`: the entry carrying
the tag is updated in place; a dataset without the tag is unchanged
(the source only writes to tags it has membership-tested). -/
def ADataset.set (d : ADataset) (g e : Nat) (v : AVal) : ADataset :=
  .mk (setTag d.entries g e v)

/-- Attribute assignment by keyword (`self.data.SliceThickness = x`):
updates the tag when present, appends a new element otherwise. -/
def ADataset.setAttr (d : ADataset) (g e : Nat) (v : AVal) : ADataset :=
  if d.contains g e then d.set g e v else .mk (d.entries ++ [.mk g e v])

/-- Python equality of an element value with a string literal
(`self._modality == 'CT'`): true only for an equal plain string. -/
def AVal.eqStr : AVal → String → Bool
  | .str s, t => s == t
  | _, _ => false

/-- Python equality of an element value with a list of strings (used by
the `value not in exeption_list` membership test). -/
def AVal.eqStrs : AVal → List String → Bool
  | .strs xs, l => xs == l
  | _, _ => false

/-- Python truthiness of a value whose `hasattr(·, '_list')` is tested:
only a sequence value carries an item list. -/
def AVal.hasList : AVal → Bool
  | .seq _ => true
  | _ => false

/-- The fixed `exeption_list` of excluded image-type triples (name as
in the source). -/
def exeption_list : List (List String) :=
  [["DERIVED", "SECONDARY", "PATIENT_INFO"],
   ["ORIGINAL", "PRIMARY", "LOCALIZER"],
   ["DERIVED", "SECONDARY", "DOSE_INFO"],
   ["DERIVED", "SECONDARY", "EXECUTED_SURVIEW"],
   ["DERIVED", "SECONDARY", "REF_SURVIEW"]]

/-- The membership test `value in exeption_list`. -/
def isExcluded (v : AVal) : Bool :=
  exeption_list.any (fun l => v.eqStrs l)

/-- The identifying `self._*` attributes captured by the constructor
(initialized to empty strings at its top; `patientLocation_attr`
models the separately-assigned `self._patientLocation`, which exists
only when tag (0038,0300) is present). -/
structure Summary where
  modality : AVal
  study_description : AVal
  series_description : AVal
  man_modelname : AVal
  manufacturer : AVal
  study_reason : AVal
  study_comments : AVal
  cur_patient_location : AVal
  patient_history : AVal
  institutename : AVal
  instituteaddress : AVal
  physicianname : AVal
  performing_physician : AVal
  stationname : AVal
  operatorsname : AVal
  patientname : AVal
  patientID : AVal
  patientbirth : AVal
  patientsex : AVal
  patientsize : AVal
  patientweight : AVal
  patient_address : AVal
  patientLocation_attr : Option AVal

/-- Guarded read `if [g,e] in self.data: x = self.data[(g,e)].value`,
keeping the current value when the tag is absent. -/
def readTag (d : ADataset) (g e : Nat) (cur : AVal) : AVal :=
  match d.get g e with
  | some v => v
  | none => cur

/-- Summary-capture phase of `CImage.__init__` (lines 44-137): the
initial `self.data.Modality` attribute read (raising when the tag is
absent), the guarded captures of the identifying fields, and the
unconditional overwrite of the operator-name tag (0008,1070) with
"Anonym Operator" right after its capture.  Captures before that
overwrite read the incoming tree; captures after it read the mutated
tree, as in the source. -/
def captureFields (d0 : ADataset) : Except String (ADataset × Summary) :=
  match d0.get 0x0008 0x0060 with
  | none => .error "AttributeError: Modality"
  | some m =>
    let s : Summary :=
      { modality := readTag d0 0x0008 0x0060 m
        study_description := readTag d0 0x0008 0x1030 (.str "")
        series_description := readTag d0 0x0008 0x103E (.str "")
        man_modelname := .str ""
        manufacturer := readTag d0 0x0008 0x0070 (.str "")
        study_reason := .str ""
        study_comments := .str ""
        cur_patient_location := .str ""
        patient_history := .str ""
        institutename := readTag d0 0x0008 0x0080 (.str "")
        instituteaddress := readTag d0 0x0008 0x0081 (.str "")
        physicianname := readTag d0 0x0008 0x0090 (.str "")
        performing_physician := readTag d0 0x0008 0x1050 (.str "")
        stationname := readTag d0 0x0008 0x1010 (.str "")
        operatorsname := readTag d0 0x0008 0x1070 (.str "")
        patientname := .str ""
        patientID := .str ""
        patientbirth := .str ""
        patientsex := .str ""
        patientsize := .str ""
        patientweight := .str ""
        patient_address := .str ""
        patientLocation_attr := none }
    let d1 := if d0.contains 0x0008 0x1070
              then d0.set 0x0008 0x1070 (.str "Anonym Operator") else d0
    let s :=
      { s with
        patientname := readTag d1 0x0010 0x0010 s.patientname
        patientID := readTag d1 0x0010 0x0020 s.patientID
        patient_address := readTag d1 0x0010 0x1040 s.patient_address
        patientLocation_attr := d1.get 0x0038 0x0300
        patientbirth := readTag d1 0x0010 0x0030 s.patientbirth
        patientsex := readTag d1 0x0010 0x0040 s.patientsex
        patientsize := readTag d1 0x0010 0x1020 s.patientsize
        patientweight := readTag d1 0x0010 0x1030 s.patientweight
        study_reason := readTag d1 0x0032 0x1030 s.study_reason
        study_comments := readTag d1 0x0032 0x4000 s.study_comments
        cur_patient_location := readTag d1 0x0038 0x0300 s.cur_patient_location
        patient_history := readTag d1 0x0010 0x21B0 s.patient_history }
    .ok (d1, s)

/-- Python `str(...)` rendering of an element value, used for the
`"uint" + str(BitsAllocated)` datatype label. -/
def AVal.display : AVal → String
  | .str s => s
  | .strs l => String.intercalate ", " l
  | .num r => toString r
  | .nums l => String.intercalate ", " (l.map toString)
  | .seq _ => "<Sequence>"

/-- Attribute read by keyword (`self.data.PatientName` and friends):
raises `AttributeError` when the tag is absent. -/
def attrGet (d : ADataset) (g e : Nat) (kw : String) : Except String AVal :=
  match d.get g e with
  | some v => .ok v
  | none => .error ("AttributeError: " ++ kw)

/-- Fields populated on the `self.valid = True` path of the
constructor. -/
structure ValidFields where
  voxelsize : Option (List Rat)
  slope : Option AVal
  intercept : Option AVal
  pat_name : AVal
  pat_id : AVal
  studydate : AVal
  imagesize : List AVal
  datatype : String

/-- Outcome of the classification segment of `CImage.__init__`
(lines 139-180): the three `self.valid = False; return` paths and the
`self.valid = True` path. -/
inductive ClassifyRes : Type where
  | missingTag : ClassifyRes
  | excluded : AVal → ClassifyRes
  | geomError : ClassifyRes
  | validOk : ValidFields → ClassifyRes

/-- The `try` block of the geometry derivation (lines 142-150): for
modality CT, MRT or MR the slice thickness is
`np.abs(ImagePositionPatient[2] - ImagePositionPatient[2])` and the
voxel size is `[PixelSpacing[0], PixelSpacing[1], slice_thickness]`;
for CT the rescale slope and intercept are additionally read; any
missing tag, short list or non-numeric value raises into the `except`
branch.  For every other modality the slice thickness stays 1.0. -/
def tryGeom (d : ADataset) (m : AVal) :
    Except Unit (Rat × Option (List Rat) × Option AVal × Option AVal) :=
  if m.eqStr "CT" || m.eqStr "MRT" || m.eqStr "MR" then
    match d.get 0x0020 0x0032 with
    | some (.nums ipp) =>
      match ipp.get? 2 with
      | some x =>
        let slice_thickness := |x - x|
        match d.get 0x0028 0x0030 with
        | some (.nums ps) =>
          match ps.get? 0, ps.get? 1 with
          | some p0, some p1 =>
            let vox := some [p0, p1, slice_thickness]
            if m.eqStr "CT" then
              match d.get 0x0028 0x1053, d.get 0x0028 0x1052 with
              | some sl, some ic => .ok (slice_thickness, vox, some sl, some ic)
              | _, _ => .error ()
            else .ok (slice_thickness, vox, none, none)
          | _, _ => .error ()
        | _ => .error ()
      | none => .error ()
    | _ => .error ()
  else .ok (1, none, none, none)

/-- The attribute reads of the `self.valid = True` tail (lines
162-171): patient name, patient id, study date, image size from rows
and columns, and the `"uint" + str(BitsAllocated)` datatype label.  A
missing tag raises out of the constructor. -/
def requiredReads (d : ADataset) (vox : Option (List Rat))
    (sl ic : Option AVal) : Except String ValidFields :=
  match attrGet d 0x0010 0x0010 "PatientName" with
  | .error e => .error e
  | .ok pn =>
  match attrGet d 0x0010 0x0020 "PatientID" with
  | .error e => .error e
  | .ok pid =>
  match attrGet d 0x0008 0x0020 "StudyDate" with
  | .error e => .error e
  | .ok sd =>
  match attrGet d 0x0028 0x0010 "Rows" with
  | .error e => .error e
  | .ok rows =>
  match attrGet d 0x0028 0x0011 "Columns" with
  | .error e => .error e
  | .ok cols =>
  match attrGet d 0x0028 0x0100 "BitsAllocated" with
  | .error e => .error e
  | .ok bits =>
    .ok { voxelsize := vox, slope := sl, intercept := ic,
          pat_name := pn, pat_id := pid, studydate := sd,
          imagesize := [rows, cols, .num 1],
          datatype := "uint" ++ bits.display }

/-- Classification segment of `CImage.__init__` (lines 139-180).
Absence of the image-type tag (0008,0008) and membership of its value
in `exeption_list` each end classification with `self.valid = False`;
a geometry failure is caught and likewise invalidates; otherwise
`self.data.SliceThickness` is written (0 for modality "SEG", the
derived thickness otherwise) and the required reads run.  The pair
returned carries the possibly-mutated dataset. -/
def classifySection (d : ADataset) (s : Summary) :
    Except String (ADataset × ClassifyRes) :=
  match d.get 0x0008 0x0008 with
  | none => .ok (d, .missingTag)
  | some it =>
    if isExcluded it then .ok (d, .excluded it)
    else if !(s.modality.eqStr "SEG") then
      match tryGeom d s.modality with
      | .error _ => .ok (d, .geomError)
      | .ok (st, vox, sl, ic) =>
        match requiredReads (d.setAttr 0x0018 0x0050 (.num st)) vox sl ic with
        | .error e => .error e
        | .ok vf => .ok (d.setAttr 0x0018 0x0050 (.num st), .validOk vf)
    else
      match requiredReads (d.setAttr 0x0018 0x0050 (.num 0)) none none none with
      | .error e => .error e
      | .ok vf => .ok (d.setAttr 0x0018 0x0050 (.num 0), .validOk vf)

/-- One `ERROR:`/`EXCEPTION` line pair written to the log sink for a
caught-and-continued failure. -/
structure LogPair where
  errLine : String
  excLine : String
deriving DecidableEq, Repr

/-- The usual log pair: `"ERROR: %s\n" % path` then
`"EXCEPTION %s\n" % e`. -/
def logPairStd (path e : String) : LogPair :=
  ⟨"ERROR: " ++ path ++ "\n", "EXCEPTION " ++ e ++ "\n"⟩

/-- The log pair of the patient-location target, which formats the
result file path and writes `"EXCEPTION: %s\n"` with a colon. -/
def logPairRes (resPath e : String) : LogPair :=
  ⟨"ERROR: " ++ resPath ++ "\n", "EXCEPTION: " ++ e ++ "\n"⟩

/-- One-level nested overwrite
`self.data[(cg,ce)]._value._list[0][(tg,te)].value = v`: fails like the
Python chain when the container is absent (`KeyError`), its value is
not a sequence (`AttributeError`), it has no first item (`IndexError`),
or the inner tag is absent (`KeyError`). -/
def setIn1 (d : ADataset) (cg ce tg te : Nat) (v : AVal) :
    Except String ADataset :=
  match d.get cg ce with
  | none => .error ("KeyError: " ++ formatTag cg ce)
  | some (.seq []) => .error "IndexError: list index out of range"
  | some (.seq (item0 :: rest)) =>
      if item0.contains tg te then
        .ok (d.set cg ce (.seq (item0.set tg te v :: rest)))
      else .error ("KeyError: " ++ formatTag tg te)
  | some _ => .error "AttributeError: _list"

/-- Two-level nested overwrite
`self.data[(cg,ce)]._value._list[0][(mg,me)]._value._list[0][(tg,te)].value = v`. -/
def setIn2 (d : ADataset) (cg ce mg me tg te : Nat) (v : AVal) :
    Except String ADataset :=
  match d.get cg ce with
  | none => .error ("KeyError: " ++ formatTag cg ce)
  | some (.seq []) => .error "IndexError: list index out of range"
  | some (.seq (i0 :: r1)) =>
      match i0.get mg me with
      | none => .error ("KeyError: " ++ formatTag mg me)
      | some (.seq []) => .error "IndexError: list index out of range"
      | some (.seq (j0 :: r2)) =>
          if j0.contains tg te then
            .ok (d.set cg ce
              (.seq (i0.set mg me (.seq (j0.set tg te v :: r2)) :: r1)))
          else .error ("KeyError: " ++ formatTag tg te)
      | some _ => .error "AttributeError: _list"
  | some _ => .error "AttributeError: _list"

/-- One-level nested read
`self.data[(cg,ce)]._value._list[0][(tg,te)].value`. -/
def getIn1 (d : ADataset) (cg ce tg te : Nat) : Except String AVal :=
  match d.get cg ce with
  | none => .error ("KeyError: " ++ formatTag cg ce)
  | some (.seq []) => .error "IndexError: list index out of range"
  | some (.seq (item0 :: _)) =>
      match item0.get tg te with
      | some v => .ok v
      | none => .error ("KeyError: " ++ formatTag tg te)
  | some _ => .error "AttributeError: _list"

/-- Two-level nested read
`self.data[(cg,ce)]._value._list[0][(mg,me)]._value._list[0][(tg,te)].value`. -/
def getIn2 (d : ADataset) (cg ce mg me tg te : Nat) : Except String AVal :=
  match d.get cg ce with
  | none => .error ("KeyError: " ++ formatTag cg ce)
  | some (.seq []) => .error "IndexError: list index out of range"
  | some (.seq (i0 :: _)) =>
      match i0.get mg me with
      | none => .error ("KeyError: " ++ formatTag mg me)
      | some (.seq []) => .error "IndexError: list index out of range"
      | some (.seq (j0 :: _)) =>
          match j0.get tg te with
          | some v => .ok v
          | none => .error ("KeyError: " ++ formatTag tg te)
      | some _ => .error "AttributeError: _list"
  | some _ => .error "AttributeError: _list"

/-- Attempt one nested target inside its own
`try/except Exception` boundary: a failure appends one log pair and
leaves the tree unchanged. -/
def attemptW (st : ADataset × List LogPair)
    (f : ADataset → Except String ADataset) (mk : String → LogPair) :
    ADataset × List LogPair :=
  match f st.1 with
  | .ok d' => (d', st.2)
  | .error e => (st.1, st.2 ++ [mk e])

/-- Nested structured-report pass of `CImage.__init__` (lines
182-248).  The two overwrites inside container (0018,A001) are only
guarded by the membership test: their failures are `KeyError`,
`IndexError` or `AttributeError`, which escape the enclosing
`except OSError` and abort the constructor (`.error`).  The six
targets under container (0400,0561) each sit in their own
`try/except Exception` which logs an `ERROR`/`EXCEPTION` pair and
continues; the patient-location target logs the result path and uses
the `EXCEPTION:` format. -/
def anonymizeNested (path resPath : String) (d : ADataset) :
    Except String (ADataset × List LogPair) :=
  match (show Except String ADataset from
         if d.contains 0x0018 0xA001 then
           match setIn1 d 0x0018 0xA001 0x0008 0x0070
               (.str "Anonymized Manufacturer") with
           | .error e => .error e
           | .ok d2 => setIn1 d2 0x0018 0xA001 0x0008 0x0080
               (.str "Anonymized Institutename")
         else .ok d) with
  | .error e => .error e
  | .ok dA =>
    match dA.get 0x0400 0x0561 with
    | some v =>
      if v.hasList then
        let st := attemptW (dA, [])
          (fun d => setIn2 d 0x0400 0x0561 0x0400 0x0550 0x0008 0x0050
            (.str "0123456789")) (logPairStd path)
        let st := attemptW st
          (fun d => setIn2 d 0x0400 0x0561 0x0400 0x0550 0x0008 0x0090
            (.str "Anonymized Physician")) (logPairStd path)
        let st := attemptW st
          (fun d => setIn2 d 0x0400 0x0561 0x0400 0x0550 0x0010 0x0010
            (.str "Anonymized Patient")) (logPairStd path)
        let st := attemptW st
          (fun d => setIn2 d 0x0400 0x0561 0x0400 0x0550 0x0010 0x0020
            (.str "Anonymized PatID")) (logPairStd path)
        let st := attemptW st
          (fun d => setIn2 d 0x0400 0x0561 0x0400 0x0550 0x0038 0x0300
            (.str "Anonymized Pat Location")) (logPairRes resPath)
        let st := attemptW st
          (fun d => setIn1 d 0x0400 0x0561 0x0400 0x0564
            (.str "Anonymized Source of Previous Values")) (logPairStd path)
        .ok st
      else .ok (dA, [])
    | none => .ok (dA, [])

mutual

/-- Models `remove_private_tags`: drop every odd-group element, recursing
into sequence items. -/
def removePrivEntries : List AEntry → List AEntry
  | [] => []
  | .mk g e v :: rest =>
      if g % 2 == 1 then removePrivEntries rest
      else .mk g e (removePrivVal v) :: removePrivEntries rest

/-- Private-tag removal inside one value. -/
def removePrivVal : AVal → AVal
  | .seq ds => .seq (removePrivDatasets ds)
  | v => v

/-- Private-tag removal across sequence items. -/
def removePrivDatasets : List ADataset → List ADataset
  | [] => []
  | .mk es :: rest => .mk (removePrivEntries es) :: removePrivDatasets rest

end

/-- Models `self.data.remove_private_tags()`. -/
def ADataset.removePrivate : ADataset → ADataset
  | .mk es => .mk (removePrivEntries es)

/-- The direct-field overwrite table of lines 252-313, in source
order: tag and fixed placeholder string.  The patient-birth-date tag
(0010,0030) is read but never rewritten and so has no row here. -/
def directFieldTable : List ((Nat × Nat) × String) :=
  [((0x0008, 0x0080), "Anonymized Institute"),
   ((0x0008, 0x0081), "Anonymized Instituteaddress"),
   ((0x0008, 0x0090), "Anonymized Physician"),
   ((0x0008, 0x1010), "Anonymized Station"),
   ((0x0008, 0x1050), "Anomized perf. Physician"),
   ((0x0008, 0x1070), "Anonymized Operator"),
   ((0x0010, 0x0010), "Anonymized Patient"),
   ((0x0010, 0x1040), "Anonymized Patient Address"),
   ((0x0010, 0x0040), "O"),
   ((0x0010, 0x1020), "1.80"),
   ((0x0010, 0x1030), "80"),
   ((0x0032, 0x1030), "Anonymized Reason"),
   ((0x0032, 0x4000), "Anonymized Patient Comments"),
   ((0x0038, 0x0300), "Anonymized Patient Location"),
   ((0x0010, 0x21B0), "Anonymized Patient History")]

/-- One guarded direct-field overwrite
`if [g,e] in self.data: self.data[(g,e)].value = c`. -/
def anonField (d : ADataset) (g e : Nat) (c : String) : ADataset :=
  if d.contains g e then d.set g e (.str c) else d

/-- Tree effect of the direct-field pass (lines 252-313): the guarded
overwrites of `directFieldTable` applied in source order.  The
accompanying `self._* = self.data[...].value` summary re-captures read
back the written constants and do not touch the tree. -/
def directFieldPassTree (d : ADataset) : ADataset :=
  directFieldTable.foldl (fun d st => anonField d st.1.1 st.1.2 st.2) d

/-- Whole anonymization block of `CImage.__init__` (lines 182-316,
executed when `ananomize_file` is true): the nested pass, then
`remove_private_tags`, then the direct-field pass.  The final
`save_as` persistence is external to the tree model. -/
def anonymizeBlock (path resPath : String) (d : ADataset) :
    Except String (ADataset × List LogPair) :=
  match anonymizeNested path resPath d with
  | .error e => .error e
  | .ok (d1, logs) => .ok (directFieldPassTree d1.removePrivate, logs)

/-- Result of a completed `CImage.__init__`: the in-memory tree, the
captured summary, the `self.valid` flag, the classification outcome,
and the log pairs written by the anonymization pass. -/
structure InitResult where
  data : ADataset
  summary : Summary
  valid : Bool
  classified : ClassifyRes
  logs : List LogPair

/-- Models `CImage.__init__`: capture, classify, and — only when the instance
came out valid and the `ananomize_file` flag is set (the invalid paths
`return` before the anonymization block) — anonymize.  `.error`
models an exception escaping the constructor. -/
def cimageInit (path resPath : String) (d0 : ADataset)
    (ananomizeFile : Bool) : Except String InitResult :=
  match captureFields d0 with
  | .error e => .error e
  | .ok (d1, s) =>
    match classifySection d1 s with
    | .error e => .error e
    | .ok (d2, c) =>
      match c with
      | .validOk vf =>
        if ananomizeFile then
          match anonymizeBlock path resPath d2 with
          | .error e => .error e
          | .ok (d3, logs) => .ok ⟨d3, s, true, .validOk vf, logs⟩
        else .ok ⟨d2, s, true, .validOk vf, []⟩
      | c => .ok ⟨d2, s, false, c, []⟩

/-- One guarded nested read inside its own `try/except Exception`: a
failure keeps the current local value and appends one log pair. -/
def attemptR (cur : AVal) (logs : List LogPair) (r : Except String AVal)
    (mk : String → LogPair) : AVal × List LogPair :=
  match r with
  | .ok v => (v, logs)
  | .error e => (cur, logs ++ [mk e])

/-- Models `CImage.get_patient_and_physician`: builds the 27-column summary
row.  When container (0018,A001) is present, the chained assignments
`manufacturer = self.data[...][(0008,0070)].value = "Anonymized
Manufacturer"` (and the institute analogue) overwrite the nested
fields as a side effect and leave the placeholder in the local; their
failures are unguarded and raise (`.error`).  The (0400,0561) reads
each sit in their own `try`.  The patient-location membership test
uses the malformed key `[('0038','0300')]`, for which pydicom's
`__contains__` returns `False`, so `patlocation` always stays
`"n.d."`.  Returns the row, the (possibly mutated) dataset and the
log pairs. -/
def get_patient_and_physician (filePath : String) (d : ADataset)
    (s : Summary) : Except String (List AVal × ADataset × List LogPair) :=
  match (show Except String (ADataset × AVal × AVal) from
         if d.contains 0x0018 0xA001 then
           match setIn1 d 0x0018 0xA001 0x0008 0x0070
               (.str "Anonymized Manufacturer") with
           | .error e => .error e
           | .ok d2 =>
             match setIn1 d2 0x0018 0xA001 0x0008 0x0080
                 (.str "Anonymized Institutename") with
             | .error e => .error e
             | .ok d3 => .ok (d3, .str "Anonymized Manufacturer",
                              .str "Anonymized Institutename")
         else .ok (d, .str "n.d.", .str "n.d.")) with
  | .error e => .error e
  | .ok (dA, manufacturer, institute) =>
    if dA.contains 0x0400 0x0561 then
      let inner : Bool := match dA.get 0x0400 0x0561 with
                          | some v => v.hasList
                          | none => false
      let st :=
        if inner then
          let (accession_num, logs) := attemptR (.str "default") []
            (getIn2 dA 0x0400 0x0561 0x0400 0x0550 0x0008 0x0050)
            (logPairStd filePath)
          let (physician, logs) := attemptR (.str "n.d.") logs
            (getIn2 dA 0x0400 0x0561 0x0400 0x0550 0x0008 0x0090)
            (logPairStd filePath)
          let (patient, logs) := attemptR (.str "n.d.") logs
            (getIn2 dA 0x0400 0x0561 0x0400 0x0550 0x0010 0x0010)
            (logPairStd filePath)
          let (patid, logs) := attemptR (.str "n.d.") logs
            (getIn2 dA 0x0400 0x0561 0x0400 0x0550 0x0010 0x0020)
            (logPairStd filePath)
          let patlocation : AVal := .str "n.d."
          let (source_of_previous_vals, logs) := attemptR (.str "n.d.") logs
            (getIn1 dA 0x0400 0x0561 0x0400 0x0564)
            (logPairStd filePath)
          (patlocation, accession_num, physician, patient, patid,
           source_of_previous_vals, logs)
        else (.str "n.d.", .str "default", .str "n.d.", .str "n.d.",
              .str "n.d.", .str "n.d.", [])
      match st with
      | (patlocation, accession_num, physician, patient, patid,
         source_of_previous_vals, logs) =>
        .ok ([.str filePath,
              s.study_description, s.series_description,
              s.institutename, s.instituteaddress, s.physicianname,
              s.performing_physician, s.stationname, s.operatorsname,
              s.patientname, s.patientbirth, s.patientsex,
              s.patientsize, s.patientweight, s.patient_address,
              patlocation, accession_num, physician, patient, patid,
              source_of_previous_vals, manufacturer, institute,
              s.study_reason, s.study_comments,
              s.cur_patient_location, s.patient_history], dA, logs)
    else
      .ok ([.str filePath,
            s.study_description, s.series_description,
            s.institutename, s.instituteaddress, s.physicianname,
            s.performing_physician, s.stationname, s.operatorsname,
            s.patientname, s.patientbirth, s.patientsex,
            s.patientsize, s.patientweight, s.patient_address,
            .str "n.d.", .str "n.d.", .str "n.d.", .str "n.d.",
            .str "n.d.", .str "n.d.", manufacturer, institute,
            s.study_reason, s.study_comments,
            s.cur_patient_location, s.patient_history], dA, [])

/-! ## Series grouping of `parse_study_dirs`

The grouping loop (lines 151-173) consumes, per processed file, its
path, its directory relative to the root, the instance's validity
flag, the captured patient identifier, the series identifier when the
dataset carries tag (0020,000E), and the retained instance object
(abstracted as a type parameter `σ`). -/

structure FileInput (σ : Type) where
  file : String
  relDir : String
  valid : Bool
  patientID : String
  seriesUID : Option String
  summary : σ

/-- One `series_dict` entry: member file paths, the retained
representative (`orgDCM`), and its relative path. -/
structure SeriesGroup (σ : Type) where
  files : List String
  orgDCM : Option σ
  relative_path : Option String

/-- The `defaultdict` default entry
`{'files': [], 'orgDCM': None, 'relative_path': None}`. -/
def emptyGroup {σ : Type} : SeriesGroup σ := ⟨[], none, none⟩

/-- Grouping key: patient id with the `"UNKNOWN_PATIENT"` fallback for
an empty (falsy) value, and the series identifier with the relative
directory as fallback. -/
def groupKey {σ : Type} (i : FileInput σ) : String × String :=
  ((if i.patientID ≠ "" then i.patientID else "UNKNOWN_PATIENT"),
   i.seriesUID.getD i.relDir)

/-- Dictionary lookup in the association-list model of `series_dict`. -/
def lookupGroup {σ : Type} :
    List ((String × String) × SeriesGroup σ) → String × String →
      Option (SeriesGroup σ)
  | [], _ => none
  | p :: rest, k => if p.1 = k then some p.2 else lookupGroup rest k

/-- Dictionary update: replace the entry of an existing key, append a
new key at the end (insertion order, as in a Python dict). -/
def setGroup {σ : Type} :
    List ((String × String) × SeriesGroup σ) → String × String →
      SeriesGroup σ → List ((String × String) × SeriesGroup σ)
  | [], k, v => [(k, v)]
  | p :: rest, k, v =>
      if p.1 = k then (k, v) :: rest else p :: setGroup rest k v

/-- One iteration of the grouping loop: invalid instances are
discarded; a valid one appends its file path to its key's group and
installs itself as representative only when the slot is still
`None`. -/
def seriesDictStep {σ : Type}
    (m : List ((String × String) × SeriesGroup σ)) (i : FileInput σ) :
    List ((String × String) × SeriesGroup σ) :=
  if i.valid then
    setGroup m (groupKey i)
      (if ((lookupGroup m (groupKey i)).getD emptyGroup).orgDCM.isNone then
         { files := ((lookupGroup m (groupKey i)).getD emptyGroup).files
             ++ [i.file],
           orgDCM := some i.summary, relative_path := some i.relDir }
       else
         { (lookupGroup m (groupKey i)).getD emptyGroup with
           files := ((lookupGroup m (groupKey i)).getD emptyGroup).files
             ++ [i.file] })
  else m

/-- The whole grouping pass over the processed files, in order. -/
def parse_study_groups {σ : Type} (l : List (FileInput σ)) :
    List ((String × String) × SeriesGroup σ) :=
  l.foldl seriesDictStep []

/-- Boolean filter for the inputs that land in key `k`. -/
def matchesKey {σ : Type} (k : String × String) (i : FileInput σ) : Bool :=
  i.valid && decide (groupKey i = k)

/-! ## Pseudo-identifiers of `parse_study_dirs`

Lines 197-201: `hash_input = (patient_id + series_uid).encode('utf-8');
pseudo_id = hash_input; hash_patient = patient_id.encode('utf-8');
patid = hash_patient` — plain UTF-8 byte encoding, no hashing. -/

/-- Models `pseudo_id`: UTF-8 bytes of the concatenated identifiers. -/
def pseudo_id (patient_id series_uid : String) : ByteArray :=
  (patient_id ++ series_uid).toUTF8

/-- Models `patid`: UTF-8 bytes of the patient identifier. -/
def patid_pseudo (patient_id : String) : ByteArray :=
  patient_id.toUTF8

/-- Byte-wise decoder: interprets each byte as a character code.  For
ASCII identifiers this inverts UTF-8 encoding. -/
def decodeBytes (l : List UInt8) : String :=
  String.mk (l.map (fun b => Char.ofNat b.toNat))

/-- Recovery function for the pseudo-identifiers: decode the byte
array back to a string. -/
def recoverId (b : ByteArray) : String :=
  decodeBytes b.data.toList

/-! ## Concrete instances used in scenarios -/

/-- A summary whose modality is `m` and whose other fields are the
constructor's initial empty strings. -/
def sumWith (m : String) : Summary :=
  { modality := .str m, study_description := .str "",
    series_description := .str "", man_modelname := .str "",
    manufacturer := .str "", study_reason := .str "",
    study_comments := .str "", cur_patient_location := .str "",
    patient_history := .str "", institutename := .str "",
    instituteaddress := .str "", physicianname := .str "",
    performing_physician := .str "", stationname := .str "",
    operatorsname := .str "", patientname := .str "",
    patientID := .str "", patientbirth := .str "",
    patientsex := .str "", patientsize := .str "",
    patientweight := .str "", patient_address := .str "",
    patientLocation_attr := none }

/-- A two-element dataset whose first element is a sequence that fails
on iteration and whose second is an ordinary sibling leaf. -/
def badSeqTree : List FElem :=
  [.mk 0x0008 0x1115 "SQ" "ReferencedSeriesSequence"
     "Referenced Series Sequence" (.iterErr "boom"),
   .mk 0x0008 0x0070 "LO" "Manufacturer" "Manufacturer" (.scalar "Siemens")]

/-- A complete CT dataset: image type present and not excluded, all
geometry and required tags available. -/
def ctDataset : ADataset := .mk
  [.mk 0x0008 0x0060 (.str "CT"),
   .mk 0x0008 0x0008 (.strs ["ORIGINAL", "PRIMARY", "AXIAL"]),
   .mk 0x0020 0x0032 (.nums [10, 20, 30]),
   .mk 0x0028 0x0030 (.nums [1, 1]),
   .mk 0x0028 0x1053 (.num 1),
   .mk 0x0028 0x1052 (.num (-1024)),
   .mk 0x0010 0x0010 (.str "Doe^John"),
   .mk 0x0010 0x0020 (.str "P1"),
   .mk 0x0008 0x0020 (.str "20240101"),
   .mk 0x0028 0x0010 (.num 512),
   .mk 0x0028 0x0011 (.num 512),
   .mk 0x0028 0x0100 (.num 16)]

/-- The classification outcome of `ctDataset` (with fallbacks that the
accompanying theorem shows are not taken). -/
def ctOut : ADataset × ClassifyRes :=
  (classifySection ctDataset (sumWith "CT")).toOption.getD
    (ctDataset, .missingTag)

/-- Dataset after classifying `ctDataset`. -/
def ctTree : ADataset := ctOut.1

/-- Valid-path fields of `ctDataset`. -/
def ctVF : ValidFields :=
  match ctOut.2 with
  | .validOk vf => vf
  | _ => ⟨none, none, none, .str "", .str "", .str "", [], ""⟩

/-- A dataset without the image-type tag (0008,0008). -/
def dsMissingType : ADataset := .mk [.mk 0x0008 0x0060 (.str "CT")]

/-- A dataset whose image-type triple is the excluded
`("DERIVED","SECONDARY","PATIENT_INFO")` entry. -/
def dsExcludedType : ADataset := .mk
  [.mk 0x0008 0x0008 (.strs ["DERIVED", "SECONDARY", "PATIENT_INFO"])]

/-- A dataset with modality and operator name whose classification
stops at the missing image-type tag. -/
def opDataset : ADataset := .mk
  [.mk 0x0008 0x0060 (.str "CT"),
   .mk 0x0008 0x1070 (.str "Dr. Who"),
   .mk 0x0010 0x0010 (.str "Doe^John")]

/-- Fallback instance result (shown unused by the theorems). -/
def fallbackInit : InitResult := ⟨.mk [], sumWith "", false, .missingTag, []⟩

/-- The instance constructed from `opDataset` without anonymization. -/
def opInitRes : InitResult :=
  (cimageInit "a.dcm" "b.dcm" opDataset false).toOption.getD fallbackInit

/-- A dataset carrying the exposure container (0018,A001) with a first
item holding manufacturer and institution name. -/
def expoDataset : ADataset := .mk
  [.mk 0x0018 0xA001 (.seq [.mk
     [.mk 0x0008 0x0070 (.str "GE MEDICAL SYSTEMS"),
      .mk 0x0008 0x0080 (.str "County Hospital")]])]

/-- A classification-valid dataset whose exposure container
(0018,A001) is present but malformed (its value is a plain string, so
`._value._list` raises `AttributeError`). -/
def ceC1 : ADataset := .mk
  [.mk 0x0008 0x0060 (.str "XA"),
   .mk 0x0008 0x0008 (.strs ["ORIGINAL", "PRIMARY", "SINGLE PLANE"]),
   .mk 0x0010 0x0010 (.str "Doe^Jane"),
   .mk 0x0010 0x0020 (.str "P2"),
   .mk 0x0008 0x0020 (.str "20240102"),
   .mk 0x0028 0x0010 (.num 512),
   .mk 0x0028 0x0011 (.num 512),
   .mk 0x0028 0x0100 (.num 16),
   .mk 0x0018 0xA001 (.str "not a sequence")]

/-- Dataset `ceC1` without its malformed exposure container. -/
def ceC1woA001 : ADataset := .mk
  [.mk 0x0008 0x0060 (.str "XA"),
   .mk 0x0008 0x0008 (.strs ["ORIGINAL", "PRIMARY", "SINGLE PLANE"]),
   .mk 0x0010 0x0010 (.str "Doe^Jane"),
   .mk 0x0010 0x0020 (.str "P2"),
   .mk 0x0008 0x0020 (.str "20240102"),
   .mk 0x0028 0x0010 (.num 512),
   .mk 0x0028 0x0011 (.num 512),
   .mk 0x0028 0x0100 (.num 16)]

/-- A dataset whose (0400,0561) container is present with one item
that lacks both the inner (0400,0550) container and the (0400,0564)
leaf, so every nested target under it fails. -/
def ds561Missing : ADataset := .mk
  [.mk 0x0400 0x0561 (.seq [.mk [.mk 0x0400 0x0500 (.str "stub")]]),
   .mk 0x0010 0x0010 (.str "Doe^Jim"),
   .mk 0x0008 0x0080 (.str "County Hospital")]

/-- The direct identifying tags the constructor touches: the
direct-field overwrite table plus the read-only patient-birth-date
tag (0010,0030). -/
def identifyingTags : List (Nat × Nat) :=
  (directFieldTable.map Prod.fst) ++ [(0x0010, 0x0030)]

/-- Effect of one tag overwrite on a single entry. -/
def applyW (g e : Nat) (v : AVal) (en : AEntry) : AEntry :=
  if en.g == g && en.e == e then .mk g e v else en

/-- Effect of the whole direct-field pass on a single entry: the
overwrites of `directFieldTable` applied in order. -/
def passEntry (en : AEntry) : AEntry :=
  directFieldTable.foldl
    (fun en st => applyW st.1.1 st.1.2 (.str st.2) en) en

/-! ## Theorems: flattener (claims C3, C4) -/

theorem walk_length_aux (incP incPix : Bool) (maxLen : Nat) : ∀ n : Nat,
    (∀ es : List FElem, sizeOf es ≤ n → ∀ base,
       (walkElems incP incPix maxLen base es).length
         = visitElems incP es + errElems incP es) ∧
    (∀ e : FElem, sizeOf e ≤ n → ∀ base,
       (walkOne incP incPix maxLen base e).length
         = visitOne incP e + errOne incP e) ∧
    (∀ its : List (List FElem), sizeOf its ≤ n → ∀ p i,
       (walkItems incP incPix maxLen p i its).length
         = visitItems incP its + errItems incP its) := by
  intro n
  induction n with
  | zero =>
      refine ⟨?_, ?_, ?_⟩
      · intro es h; cases es <;> simp_all
      · intro e h; cases e with | mk g el vr kw nm v => simp_all
      · intro its h; cases its <;> simp_all
  | succ n ih =>
      obtain ⟨ihE, ihO, ihI⟩ := ih
      refine ⟨?_, ?_, ?_⟩
      · intro es h base
        cases es with
        | nil => simp [walkElems, visitElems, errElems]
        | cons e rest =>
            have h1 : sizeOf e ≤ n := by simp_all; omega
            have h2 : sizeOf rest ≤ n := by simp_all; omega
            rw [walkElems, visitElems, errElems, List.length_append,
                ihO e h1 base, ihE rest h2 base]
            omega
      · intro e h base
        cases e with
        | mk g el vr kw nm v =>
          by_cases hp : (isPrivateTag g && !incP) = true
          · cases v <;> simp [walkOne, visitOne, errOne, hp]
          · by_cases hsq : (vr == "SQ") = true
            · cases v with
              | scalar s => simp [walkOne, visitOne, errOne, hp, hsq]
              | multi ss => simp [walkOne, visitOne, errOne, hp, hsq]
              | items its =>
                  have hits : sizeOf its ≤ n := by simp_all; omega
                  simp only [walkOne, visitOne, errOne, hp, Bool.false_eq_true,
                    if_false, hsq, if_true, List.length_cons,
                    ihI its hits]
                  omega
              | iterErr err => simp [walkOne, visitOne, errOne, hp, hsq]
            · cases v <;> simp [walkOne, visitOne, errOne, hp, hsq]
      · intro its h p i
        cases its with
        | nil => simp [walkItems, visitItems, errItems]
        | cons item rest =>
            have h1 : sizeOf item ≤ n := by simp_all; omega
            have h2 : sizeOf rest ≤ n := by simp_all; omega
            rw [walkItems, visitItems, errItems, List.length_append,
                ihE item h1 _, ihI rest h2 p (i + 1)]
            omega

/-- C4: for every element tree, the length of the flatten output
equals the number of visited nodes — private nodes and their subtrees
are skipped when `incP` is false, every other node yields exactly one
`TagRecord` — plus one extra record per malformed-sequence subtree. -/
theorem flatten_length_eq_visited_plus_errors (incP incPix : Bool)
    (maxLen : Nat) (ds : List FElem) :
    (extract_dicom_metadata incP incPix maxLen ds).length
      = visitElems incP ds + errElems incP ds :=
  (walk_length_aux incP incPix maxLen (sizeOf ds)).1 ds (Nat.le_refl _) ""

/-- C3 (counterexample): on `badSeqTree` the element whose iteration
raises contributes TWO records — its normal record with value
`"<Sequence>"` (appended before the recursion is attempted) and then
the synthetic `"<sequence read error: …>"` record — so the synthetic
record is emitted in addition to the normal one, not instead of it;
the sibling leaf is flattened normally after both. -/
theorem seq_error_synthetic_in_addition :
    (extract_dicom_metadata true false 200 badSeqTree).map TagRecord.value
      = ["<Sequence>", "<sequence read error: boom>", "Siemens"] ∧
    ((extract_dicom_metadata true false 200 badSeqTree).filter
        (fun r => r.tag == "(0008,1115)")).length ≠ 1 := by
  constructor
  · rfl
  · decide

/-- C3 (amended): for every visited sequence element whose child
iteration raises an error, the flattener emits the element's normal
record (value `"<Sequence>"`, or the pixel-data placeholder for the
pixel-data tag) and, in addition, exactly one synthetic record that
differs from it only in its value `"<sequence read error: {error}>"`;
it does not recurse below that element, and sibling subtrees
contribute their usual records unaffected. -/
theorem seq_error_emits_synthetic_after_normal (incP incPix : Bool)
    (maxLen : Nat) (base : String) (g el : Nat) (kw nm err : String)
    (rest : List FElem) (h : (isPrivateTag g && !incP) = false) :
    ∃ r : TagRecord,
      r.value = (if g == 0x7FE0 && el == 0x0010 && !incPix
                 then "<PixelData omitted>" else "<Sequence>") ∧
      walkElems incP incPix maxLen base
          (.mk g el "SQ" kw nm (.iterErr err) :: rest)
        = r :: { r with value := "<sequence read error: " ++ err ++ ">" }
            :: walkElems incP incPix maxLen base rest := by
  refine ⟨mkEntry incPix maxLen base (.mk g el "SQ" kw nm (.iterErr err)),
          ?_, ?_⟩
  · simp [mkEntry, valueToStr, FElem.vr, FElem.group, FElem.elem]
  · rw [walkElems, walkOne]
    simp [h]

/-- Witness for the amended C3 statement at a concrete sequence
element. -/
theorem seq_error_emits_synthetic_after_normal_witness :
    ∃ r : TagRecord,
      r.value = (if (0x0008 : Nat) == 0x7FE0 && (0x1115 : Nat) == 0x0010
                    && !false
                 then "<PixelData omitted>" else "<Sequence>") ∧
      walkElems true false 200 ""
          (.mk 0x0008 0x1115 "SQ" "ReferencedSeriesSequence"
             "Referenced Series Sequence" (.iterErr "boom") :: [])
        = r :: { r with value := "<sequence read error: " ++ "boom" ++ ">" }
            :: walkElems true false 200 "" [] :=
  seq_error_emits_synthetic_after_normal true false 200 "" 0x0008 0x1115
    "ReferencedSeriesSequence" "Referenced Series Sequence" "boom" []
    (by decide)

/-! ## Helper lemmas on dataset operations -/

theorem containsTag_eq_isSome (l : List AEntry) (g e : Nat) :
    containsTag l g e = (lookupTag l g e).isSome := by
  induction l with
  | nil => rfl
  | cons en rest ih =>
      cases en with
      | mk a b w =>
        by_cases hm : (a == g && b == e) = true
        · simp [containsTag, lookupTag, hm]
        · simp [containsTag, lookupTag, hm, ih]

theorem lookupTag_setTag_self (l : List AEntry) (g e : Nat) (v : AVal)
    (h : containsTag l g e = true) :
    lookupTag (setTag l g e v) g e = some v := by
  induction l with
  | nil => simp [containsTag] at h
  | cons en rest ih =>
      cases en with
      | mk a b w =>
        by_cases hm : (a == g && b == e) = true
        · simp [setTag, lookupTag, hm]
        · simp only [containsTag, hm, Bool.false_or] at h
          simp [setTag, lookupTag, hm, ih h]

theorem lookupTag_setTag_ne (l : List AEntry) (g e g' e' : Nat) (v : AVal)
    (h : ¬(g' = g ∧ e' = e)) :
    lookupTag (setTag l g' e' v) g e = lookupTag l g e := by
  induction l with
  | nil => rfl
  | cons en rest ih =>
      cases en with
      | mk a b w =>
        have hne : (g' == g && e' == e) = true → False := by
          simp only [Bool.and_eq_true, beq_iff_eq]
          exact h
        by_cases hm : (a == g' && b == e') = true
        · simp only [Bool.and_eq_true, beq_iff_eq] at hm
          obtain ⟨rfl, rfl⟩ := hm
          have hf : (a == g && b == e) = false := by
            rcases Decidable.em (a = g) with hg | hg
            · have : ¬b = e := fun he => h ⟨hg, he⟩
              simp [beq_iff_eq, this]
            · simp [beq_iff_eq, hg]
          simp [setTag, lookupTag, hf, ih]
        · simp only [setTag, hm, Bool.false_eq_true, if_false, lookupTag]
          by_cases hab : (a == g && b == e) = true
          · simp [hab]
          · simp [hab, ih]

theorem containsTag_setTag (l : List AEntry) (g e g' e' : Nat) (v : AVal) :
    containsTag (setTag l g' e' v) g e = containsTag l g e := by
  induction l with
  | nil => rfl
  | cons en rest ih =>
      cases en with
      | mk a b w =>
        by_cases hm : (a == g' && b == e') = true
        · simp only [Bool.and_eq_true, beq_iff_eq] at hm
          obtain ⟨rfl, rfl⟩ := hm
          simp [setTag, containsTag, ih]
        · simp [setTag, containsTag, hm, ih]

theorem lookupTag_append_self (l : List AEntry) (g e : Nat) (v : AVal)
    (h : containsTag l g e = false) :
    lookupTag (l ++ [.mk g e v]) g e = some v := by
  induction l with
  | nil => simp [lookupTag]
  | cons en rest ih =>
      cases en with
      | mk a b w =>
        simp only [containsTag, Bool.or_eq_false_iff] at h
        simp [lookupTag, h.1, ih h.2]

theorem lookupTag_append_ne (l : List AEntry) (g e g' e' : Nat) (v : AVal)
    (h : ¬(g' = g ∧ e' = e)) :
    lookupTag (l ++ [.mk g' e' v]) g e = lookupTag l g e := by
  induction l with
  | nil =>
      have : (g' == g && e' == e) = false := by
        simp only [Bool.and_eq_true, beq_iff_eq, Bool.and_eq_false_iff]
        rcases Decidable.em (g' = g) with hg | hg
        · exact Or.inr (by simp [beq_iff_eq]; exact fun he => h ⟨hg, he⟩)
        · exact Or.inl (by simp [beq_iff_eq]; exact hg)
      simp [lookupTag, this]
  | cons en rest ih =>
      cases en with
      | mk a b w =>
        by_cases hab : (a == g && b == e) = true
        · simp [lookupTag, hab]
        · simp [lookupTag, hab, ih]

theorem get_setAttr_self (d : ADataset) (g e : Nat) (v : AVal) :
    (d.setAttr g e v).get g e = some v := by
  cases d with
  | mk l =>
    by_cases hc : containsTag l g e = true
    · simp only [ADataset.setAttr, ADataset.contains, ADataset.entries, hc,
        if_true, ADataset.get, ADataset.set]
      exact lookupTag_setTag_self l g e v hc
    · simp only [ADataset.setAttr, ADataset.contains, ADataset.entries, hc,
        Bool.false_eq_true, if_false, ADataset.get]
      exact lookupTag_append_self l g e v (Bool.eq_false_iff.mpr hc)

theorem get_setAttr_ne (d : ADataset) (g e g' e' : Nat) (v : AVal)
    (h : ¬(g' = g ∧ e' = e)) :
    (d.setAttr g' e' v).get g e = d.get g e := by
  cases d with
  | mk l =>
    by_cases hc : containsTag l g' e' = true
    · simp only [ADataset.setAttr, ADataset.contains, ADataset.entries, hc,
        if_true, ADataset.get, ADataset.set]
      exact lookupTag_setTag_ne l g e g' e' v h
    · simp only [ADataset.setAttr, ADataset.contains, ADataset.entries, hc,
        Bool.false_eq_true, if_false, ADataset.get]
      exact lookupTag_append_ne l g e g' e' v h

theorem get_set_self (d : ADataset) (g e : Nat) (v : AVal)
    (h : d.contains g e = true) :
    (d.set g e v).get g e = some v := by
  cases d with
  | mk l => exact lookupTag_setTag_self l g e v h

theorem get_set_ne (d : ADataset) (g e g' e' : Nat) (v : AVal)
    (h : ¬(g' = g ∧ e' = e)) :
    (d.set g' e' v).get g e = d.get g e := by
  cases d with
  | mk l => exact lookupTag_setTag_ne l g e g' e' v h

theorem contains_set (d : ADataset) (g e g' e' : Nat) (v : AVal) :
    (d.set g' e' v).contains g e = d.contains g e := by
  cases d with
  | mk l => exact containsTag_setTag l g e g' e' v

/-! ## Theorems: validity classifier (claims C5, C10) -/

/-- C5: the classifier sends each instance to exactly one terminal
outcome; when the image-type tag (0008,0008) is absent the instance is
invalid and classification stops at `missingTag`, and when the
image-type value matches an entry of the fixed `exeption_list` the
instance is invalid (`excluded`) regardless of the modality carried by
the summary. -/
theorem classifier_invalid_cases (d : ADataset) (s : Summary) :
    (d.get 0x0008 0x0008 = none →
       classifySection d s = .ok (d, .missingTag)) ∧
    (∀ v, d.get 0x0008 0x0008 = some v → isExcluded v = true →
       classifySection d s = .ok (d, .excluded v)) := by
  constructor
  · intro h
    simp [classifySection, h]
  · intro v hv hex
    simp [classifySection, hv, hex]

/-- Witness for C5: a dataset without the image-type tag is
`missingTag`; the triple `("DERIVED","SECONDARY","PATIENT_INFO")` is
`excluded` under a different modality. -/
theorem classifier_invalid_cases_witness :
    classifySection dsMissingType (sumWith "CT")
      = .ok (dsMissingType, .missingTag) ∧
    classifySection dsExcludedType (sumWith "MR")
      = .ok (dsExcludedType,
             .excluded (.strs ["DERIVED", "SECONDARY", "PATIENT_INFO"])) :=
  ⟨(classifier_invalid_cases dsMissingType (sumWith "CT")).1 rfl,
   (classifier_invalid_cases dsExcludedType (sumWith "MR")).2
     (.strs ["DERIVED", "SECONDARY", "PATIENT_INFO"]) rfl rfl⟩

theorem tryGeom_volumetric (d : ADataset) (m : AVal)
    (hm : (m.eqStr "CT" || m.eqStr "MRT" || m.eqStr "MR") = true)
    (st : Rat) (vox : Option (List Rat)) (sl ic : Option AVal)
    (h : tryGeom d m = .ok (st, vox, sl, ic)) :
    st = 0 ∧ ∃ p0 p1, vox = some [p0, p1, 0] := by
  rw [tryGeom, if_pos hm] at h
  repeat' split at h
  all_goals
    simp only [Except.error.injEq, Except.ok.injEq, Prod.mk.injEq,
      reduceCtorEq] at h
  all_goals
    obtain ⟨hst, hvox, -⟩ := h
  all_goals
    simp only [sub_self, abs_zero] at hvox hst
  all_goals
    exact ⟨hst.symm, _, _, hvox.symm⟩

theorem tryGeom_other (d : ADataset) (m : AVal)
    (hm : (m.eqStr "CT" || m.eqStr "MRT" || m.eqStr "MR") = false)
    (st : Rat) (vox : Option (List Rat)) (sl ic : Option AVal)
    (h : tryGeom d m = .ok (st, vox, sl, ic)) : st = 1 := by
  rw [tryGeom, if_neg (by simp [hm])] at h
  simp only [Except.ok.injEq, Prod.mk.injEq] at h
  exact h.1.symm

theorem requiredReads_voxelsize (d : ADataset) (vox : Option (List Rat))
    (sl ic : Option AVal) (vf : ValidFields)
    (h : requiredReads d vox sl ic = .ok vf) : vf.voxelsize = vox := by
  rw [requiredReads] at h
  rcases h1 : attrGet d 0x0010 0x0010 "PatientName" with e | pn <;> rw [h1] at h
  · simp at h
  rcases h2 : attrGet d 0x0010 0x0020 "PatientID" with e | pid <;> rw [h2] at h
  · simp at h
  rcases h3 : attrGet d 0x0008 0x0020 "StudyDate" with e | sd <;> rw [h3] at h
  · simp at h
  rcases h4 : attrGet d 0x0028 0x0010 "Rows" with e | rw' <;> rw [h4] at h
  · simp at h
  rcases h5 : attrGet d 0x0028 0x0011 "Columns" with e | cl <;> rw [h5] at h
  · simp at h
  rcases h6 : attrGet d 0x0028 0x0100 "BitsAllocated" with e | bt <;> rw [h6] at h
  · simp at h
  simp only [Except.ok.injEq] at h
  rw [← h]

/-- C10: for every instance classified Valid with modality "CT", "MR"
or "MRT", the slice thickness written into the tree equals 0 — it is
computed as `np.abs(ImagePositionPatient[2] - ImagePositionPatient[2])`
— and the third component of the derived voxel size equals 0; for
every other modality that is not "SEG" and reaches Valid, the stored
slice thickness equals 1.0. -/
theorem valid_slice_thickness (d d' : ADataset) (s : Summary)
    (vf : ValidFields)
    (h : classifySection d s = .ok (d', .validOk vf)) :
    ((s.modality.eqStr "CT" || s.modality.eqStr "MRT"
        || s.modality.eqStr "MR") = true →
       d'.get 0x0018 0x0050 = some (.num 0) ∧
       ∃ p0 p1, vf.voxelsize = some [p0, p1, 0]) ∧
    ((s.modality.eqStr "CT" || s.modality.eqStr "MRT"
        || s.modality.eqStr "MR") = false →
       s.modality.eqStr "SEG" = false →
       d'.get 0x0018 0x0050 = some (.num 1)) := by
  rw [classifySection] at h
  split at h
  · simp at h
  · split at h
    · simp at h
    · split at h
      · -- modality is not "SEG": geometry derivation ran
        split at h
        · simp at h
        · split at h
          · simp at h
          · rename_i x1 st vox sl ic htg x2 vf0 hrr
            simp only [Except.ok.injEq, Prod.mk.injEq,
              ClassifyRes.validOk.injEq] at h
            obtain ⟨hd', hvf⟩ := h
            constructor
            · intro hvol
              obtain ⟨hst, p0, p1, hvox⟩ :=
                tryGeom_volumetric d s.modality hvol st vox sl ic htg
              subst hst
              refine ⟨?_, p0, p1, ?_⟩
              · rw [← hd']
                exact get_setAttr_self d 0x0018 0x0050 (.num 0)
              · rw [← hvf, requiredReads_voxelsize _ _ _ _ vf0 hrr]
                exact hvox
            · intro hnvol _
              have hst := tryGeom_other d s.modality hnvol st vox sl ic htg
              subst hst
              rw [← hd']
              exact get_setAttr_self d 0x0018 0x0050 (.num 1)
      · -- modality is "SEG": both implications are vacuous
        rename_i hseg
        have hseg' : s.modality.eqStr "SEG" = true := by
          cases hb : s.modality.eqStr "SEG"
          · rw [hb] at hseg
            simp at hseg
          · rfl
        constructor
        · intro hvol
          exfalso
          cases hm : s.modality <;> rw [hm] at hseg' hvol <;>
            simp [AVal.eqStr] at hseg' hvol
          subst hseg'
          simp at hvol
        · intro _ hnseg
          rw [hseg'] at hnseg
          cases hnseg

/-- Witness for C10 at the concrete CT dataset: the stored slice
thickness is 0 and the voxel size ends in 0. -/
theorem valid_slice_thickness_witness :
    ctTree.get 0x0018 0x0050 = some (.num 0) ∧
      ∃ p0 p1, ctVF.voxelsize = some [p0, p1, 0] :=
  (valid_slice_thickness ctDataset ctTree (sumWith "CT") ctVF rfl).1 rfl

/-! ## Theorems: constructor without anonymization (claim C9) -/

theorem captureFields_ok (d0 d1 : ADataset) (s : Summary)
    (h : captureFields d0 = .ok (d1, s)) :
    d1 = (if d0.contains 0x0008 0x1070
          then d0.set 0x0008 0x1070 (.str "Anonym Operator") else d0) ∧
    s.operatorsname = readTag d0 0x0008 0x1070 (.str "") := by
  rw [captureFields] at h
  split at h
  · cases h
  · simp only [Except.ok.injEq, Prod.mk.injEq] at h
    obtain ⟨hd, hs⟩ := h
    exact ⟨hd.symm, by rw [← hs]⟩

theorem classifySection_frame (d d' : ADataset) (s : Summary)
    (c : ClassifyRes) (h : classifySection d s = .ok (d', c))
    (g e : Nat) (hne : ¬(0x0018 = g ∧ 0x0050 = e)) :
    d'.get g e = d.get g e := by
  rw [classifySection] at h
  split at h
  · simp only [Except.ok.injEq, Prod.mk.injEq] at h
    rw [← h.1]
  · split at h
    · simp only [Except.ok.injEq, Prod.mk.injEq] at h
      rw [← h.1]
    · split at h
      · split at h
        · simp only [Except.ok.injEq, Prod.mk.injEq] at h
          rw [← h.1]
        · split at h
          · cases h
          · simp only [Except.ok.injEq, Prod.mk.injEq] at h
            rw [← h.1]
            exact get_setAttr_ne d g e 0x0018 0x0050 _ hne
      · split at h
        · cases h
        · simp only [Except.ok.injEq, Prod.mk.injEq] at h
          rw [← h.1]
          exact get_setAttr_ne d g e 0x0018 0x0050 _ hne

/-- C9: constructing an instance with the anonymization flag off still
captures the original operator name (0008,1070) into the summary and
then overwrites it in the in-memory tree with "Anonym Operator"; no
other direct identifying field of the tree is modified by the
construction. -/
theorem operator_captured_and_overwritten (path resPath : String)
    (d0 : ADataset) (st : InitResult)
    (h : cimageInit path resPath d0 false = .ok st) :
    (∀ v, d0.get 0x0008 0x1070 = some v →
       st.summary.operatorsname = v ∧
       st.data.get 0x0008 0x1070 = some (.str "Anonym Operator")) ∧
    (∀ g e, (g, e) ∈ identifyingTags → ¬(g = 0x0008 ∧ e = 0x1070) →
       st.data.get g e = d0.get g e) := by
  rw [cimageInit] at h
  split at h
  · cases h
  · rename_i x1 d1 s hcap
    split at h
    · cases h
    · rename_i x2 d2 c hcls
      obtain ⟨hd1, hop⟩ := captureFields_ok d0 d1 s hcap
      have hst : st.data = d2 ∧ st.summary = s := by
        cases c <;> simp only [Bool.false_eq_true, if_false,
          Except.ok.injEq] at h <;> rw [← h] <;> exact ⟨rfl, rfl⟩
      obtain ⟨hstd, hsts⟩ := hst
      constructor
      · intro v hv
        have hcont : d0.contains 0x0008 0x1070 = true := by
          cases d0 with
          | mk l =>
            rw [ADataset.contains, containsTag_eq_isSome]
            rw [ADataset.get] at hv
            rw [hv]
            rfl
        constructor
        · rw [hsts, hop, readTag, hv]
        · rw [hstd,
              classifySection_frame d1 d2 s c hcls 0x0008 0x1070 (by omega),
              hd1, if_pos hcont]
          exact get_set_self d0 0x0008 0x1070 _ hcont
      · intro g e hmem hne
        have hne5080 : ¬(0x0018 = g ∧ 0x0050 = e) := by
          simp only [identifyingTags, directFieldTable, List.map_append,
            List.map_cons, List.mem_append, List.mem_cons,
            List.mem_singleton, Prod.mk.injEq, List.map_nil,
            List.not_mem_nil, or_false] at hmem
          rcases hmem with h' | h' <;> omega
        have hne1070 : ¬((0x0008 : Nat) = g ∧ (0x1070 : Nat) = e) := by
          intro ⟨h1, h2⟩
          exact hne ⟨h1.symm, h2.symm⟩
        rw [hstd, classifySection_frame d1 d2 s c hcls g e hne5080, hd1]
        by_cases hc : d0.contains 0x0008 0x1070 = true
        · rw [if_pos hc]
          exact get_set_ne d0 g e 0x0008 0x1070 _ hne1070
        · rw [if_neg hc]

/-- Witness for C9: the operator name of `opDataset` is captured into
the summary and replaced by the constant in the tree, and the patient
name entry is untouched. -/
theorem operator_captured_and_overwritten_witness :
    ((opInitRes.summary.operatorsname = AVal.str "Dr. Who" ∧
      opInitRes.data.get 0x0008 0x1070 = some (.str "Anonym Operator")) ∧
     opInitRes.data.get 0x0010 0x0010 = opDataset.get 0x0010 0x0010) :=
  have hmain := operator_captured_and_overwritten "a.dcm" "b.dcm"
    opDataset opInitRes rfl
  ⟨hmain.1 (.str "Dr. Who") rfl,
   hmain.2 0x0010 0x0010 (by decide) (by omega)⟩

/-! ## Theorems: direct-field pass idempotence (claim C7) -/

theorem beq_pair_false (g e g' e' : Nat) (hne : ¬(g = g' ∧ e = e')) :
    (g == g' && e == e') = false := by
  rcases Decidable.em (g = g') with hg | hg
  · have he : ¬e = e' := fun he => hne ⟨hg, he⟩
    simp [hg, he]
  · simp [hg]

theorem setTag_eq_map (l : List AEntry) (g e : Nat) (v : AVal) :
    setTag l g e v = l.map (applyW g e v) := by
  induction l with
  | nil => rfl
  | cons en rest ih =>
      cases en with
      | mk a b w => simp [setTag, applyW, AEntry.g, AEntry.e, ih]

theorem map_applyW_id (l : List AEntry) (g e : Nat) (v : AVal)
    (hc : containsTag l g e = false) :
    l.map (applyW g e v) = l := by
  induction l with
  | nil => rfl
  | cons en rest ih =>
      cases en with
      | mk a b w =>
        simp only [containsTag, Bool.or_eq_false_iff] at hc
        simp [applyW, AEntry.g, AEntry.e, hc.1, ih hc.2]

theorem anonField_eq_map (l : List AEntry) (g e : Nat) (c : String) :
    anonField (.mk l) g e c = .mk (l.map (applyW g e (.str c))) := by
  rw [anonField]
  by_cases hc : (ADataset.mk l).contains g e = true
  · rw [if_pos hc, ADataset.set]
    rw [ADataset.entries, setTag_eq_map]
  · rw [if_neg hc]
    rw [ADataset.contains, ADataset.entries] at hc
    rw [map_applyW_id l g e _ (Bool.eq_false_iff.mpr hc)]

theorem foldl_anonField_map (steps : List ((Nat × Nat) × String))
    (l : List AEntry) :
    steps.foldl (fun d st => anonField d st.1.1 st.1.2 st.2) (.mk l)
      = .mk (l.map (fun en =>
          steps.foldl (fun en st => applyW st.1.1 st.1.2 (.str st.2) en) en))
    := by
  induction steps generalizing l with
  | nil => simp
  | cons st r ih =>
      simp only [List.foldl_cons]
      rw [anonField_eq_map, ih, List.map_map]
      rfl

theorem applyW_applyW_same (g e : Nat) (v : AVal) (en : AEntry) :
    applyW g e v (applyW g e v en) = applyW g e v en := by
  cases en with
  | mk a b w =>
    by_cases hm : (a == g && b == e) = true
    · simp [applyW, AEntry.g, AEntry.e, hm]
    · simp [applyW, AEntry.g, AEntry.e, hm]

theorem applyW_comm (g e g' e' : Nat) (v v' : AVal) (en : AEntry)
    (hne : ¬(g = g' ∧ e = e')) :
    applyW g e v (applyW g' e' v' en) = applyW g' e' v' (applyW g e v en)
    := by
  have hne' : ¬(g' = g ∧ e' = e) := fun ⟨h1, h2⟩ => hne ⟨h1.symm, h2.symm⟩
  cases en with
  | mk a b w =>
    have hgv : ∀ (G E : Nat) (V : AVal) (X Y : Nat) (Z : AVal),
        applyW G E V (.mk X Y Z)
          = if (X == G && Y == E) = true then .mk G E V else .mk X Y Z := by
      intro G E V X Y Z
      simp [applyW, AEntry.g, AEntry.e]
    have hb : ¬((g == g' && e == e') = true) := by
      rw [beq_pair_false g e g' e' hne]
      simp
    have hb' : ¬((g' == g && e' == e) = true) := by
      rw [beq_pair_false g' e' g e hne']
      simp
    by_cases h1 : (a == g && b == e) = true <;>
      by_cases h2 : (a == g' && b == e') = true
    · exfalso
      simp only [Bool.and_eq_true, beq_iff_eq] at h1 h2
      exact hne ⟨h1.1.symm.trans h2.1, h1.2.symm.trans h2.2⟩
    · simp [hgv, h1, h2, hb, hb']
    · simp [hgv, h1, h2, hb, hb']
    · simp [hgv, h1, h2]

theorem foldl_applyW_comm (r : List ((Nat × Nat) × String)) (g e : Nat)
    (v : AVal) (en : AEntry)
    (hni : ∀ st ∈ r, ¬(st.1.1 = g ∧ st.1.2 = e)) :
    List.foldl (fun en st => applyW st.1.1 st.1.2 (.str st.2) en)
        (applyW g e v en) r
      = applyW g e v
          (List.foldl (fun en st => applyW st.1.1 st.1.2 (.str st.2) en)
            en r) := by
  induction r generalizing en with
  | nil => rfl
  | cons st rest ih =>
      simp only [List.foldl_cons]
      rw [applyW_comm st.1.1 st.1.2 g e _ v en
            (fun hp => hni st (List.mem_cons_self st rest) hp)]
      exact ih (applyW st.1.1 st.1.2 (.str st.2) en)
        (fun st' h' => hni st' (List.mem_cons_of_mem st h'))

theorem foldl_applyW_idem (steps : List ((Nat × Nat) × String)) (en : AEntry)
    (hdist : steps.Pairwise
      (fun a b => ¬(b.1.1 = a.1.1 ∧ b.1.2 = a.1.2))) :
    List.foldl (fun en st => applyW st.1.1 st.1.2 (.str st.2) en)
        (List.foldl (fun en st => applyW st.1.1 st.1.2 (.str st.2) en) en
          steps) steps
      = List.foldl (fun en st => applyW st.1.1 st.1.2 (.str st.2) en) en
          steps := by
  induction steps generalizing en with
  | nil => rfl
  | cons st r ih =>
      obtain ⟨hhead, hrest⟩ := List.pairwise_cons.mp hdist
      simp only [List.foldl_cons]
      have e1 := foldl_applyW_comm r st.1.1 st.1.2 (.str st.2)
        (List.foldl (fun en st => applyW st.1.1 st.1.2 (.str st.2) en)
          (applyW st.1.1 st.1.2 (.str st.2) en) r) hhead
      have e2 := ih (applyW st.1.1 st.1.2 (.str st.2) en) hrest
      have e3 := foldl_applyW_comm r st.1.1 st.1.2 (.str st.2)
        (applyW st.1.1 st.1.2 (.str st.2) en) hhead
      have hw := applyW_applyW_same st.1.1 st.1.2 (.str st.2) en
      rw [e1, e2, ← e3, hw]

theorem foldl_anonField_idem (steps : List ((Nat × Nat) × String))
    (hdist : steps.Pairwise
      (fun a b => ¬(b.1.1 = a.1.1 ∧ b.1.2 = a.1.2))) (d : ADataset) :
    steps.foldl (fun d st => anonField d st.1.1 st.1.2 st.2)
        (steps.foldl (fun d st => anonField d st.1.1 st.1.2 st.2) d)
      = steps.foldl (fun d st => anonField d st.1.1 st.1.2 st.2) d := by
  cases d with
  | mk l =>
    rw [foldl_anonField_map, foldl_anonField_map, List.map_map]
    congr 1
    apply List.map_congr_left
    intro en _
    exact foldl_applyW_idem steps en hdist

/-- C7: the direct-field anonymization pass is idempotent on the
element tree — running it twice yields the same tree as running it
once, because every overwritten field receives a fixed constant
placeholder that does not depend on the field value. -/
theorem direct_field_pass_idempotent (d : ADataset) :
    directFieldPassTree (directFieldPassTree d) = directFieldPassTree d :=
  foldl_anonField_idem directFieldTable (by decide) d

/-! ## Theorems: summary extraction side effect (claim C8) -/

theorem setIn1_ok (d : ADataset) (cg ce tg te : Nat) (v : AVal)
    (i0 : ADataset) (items : List ADataset)
    (hA : d.get cg ce = some (.seq (i0 :: items)))
    (ht : i0.contains tg te = true) :
    setIn1 d cg ce tg te v
      = .ok (d.set cg ce (.seq (i0.set tg te v :: items))) := by
  rw [setIn1, hA]
  simp [ht]

/-- C8: for every tree whose exposure container (0018,A001) has a
first item carrying the manufacturer (0008,0070) and institution-name
(0008,0080) fields, `get_patient_and_physician` overwrites both nested
fields with the placeholder strings as a side effect of reading them,
and returns the placeholders (row columns 21 and 22), not the
pre-existing values: the read is not side-effect-free. -/
theorem getPP_overwrites_exposure (filePath : String) (d : ADataset)
    (s : Summary) (i0 : ADataset) (items : List ADataset)
    (hA : d.get 0x0018 0xA001 = some (.seq (i0 :: items)))
    (h70 : i0.contains 0x0008 0x0070 = true)
    (h80 : i0.contains 0x0008 0x0080 = true) :
    ∃ row d' logs,
      get_patient_and_physician filePath d s = .ok (row, d', logs) ∧
      row.get? 21 = some (.str "Anonymized Manufacturer") ∧
      row.get? 22 = some (.str "Anonymized Institutename") ∧
      getIn1 d' 0x0018 0xA001 0x0008 0x0070
        = .ok (.str "Anonymized Manufacturer") ∧
      getIn1 d' 0x0018 0xA001 0x0008 0x0080
        = .ok (.str "Anonymized Institutename") := by
  have hcont : d.contains 0x0018 0xA001 = true := by
    cases d with
    | mk l =>
      rw [ADataset.contains, containsTag_eq_isSome]
      rw [ADataset.get] at hA
      rw [hA]
      rfl
  have hs1 := setIn1_ok d 0x0018 0xA001 0x0008 0x0070
    (.str "Anonymized Manufacturer") i0 items hA h70
  have hd2A : (d.set 0x0018 0xA001
      (.seq (i0.set 0x0008 0x0070 (.str "Anonymized Manufacturer") :: items))).get
        0x0018 0xA001
      = some (.seq (i0.set 0x0008 0x0070 (.str "Anonymized Manufacturer")
          :: items)) :=
    get_set_self d 0x0018 0xA001 _ hcont
  have h80' : (i0.set 0x0008 0x0070
      (.str "Anonymized Manufacturer")).contains 0x0008 0x0080 = true := by
    rw [contains_set]
    exact h80
  have hs2 := setIn1_ok (d.set 0x0018 0xA001
      (.seq (i0.set 0x0008 0x0070 (.str "Anonymized Manufacturer") :: items)))
    0x0018 0xA001 0x0008 0x0080 (.str "Anonymized Institutename")
    (i0.set 0x0008 0x0070 (.str "Anonymized Manufacturer")) items hd2A h80'
  -- the final dataset and its nested reads
  set i2 := (i0.set 0x0008 0x0070 (.str "Anonymized Manufacturer")).set
    0x0008 0x0080 (.str "Anonymized Institutename") with hi2
  set d3 := (d.set 0x0018 0xA001
      (.seq (i0.set 0x0008 0x0070 (.str "Anonymized Manufacturer") :: items))).set
    0x0018 0xA001 (.seq (i2 :: items)) with hd3
  have hcont2 : (d.set 0x0018 0xA001
      (.seq (i0.set 0x0008 0x0070 (.str "Anonymized Manufacturer")
        :: items))).contains 0x0018 0xA001 = true := by
    rw [contains_set]
    exact hcont
  have hd3A : d3.get 0x0018 0xA001 = some (.seq (i2 :: items)) :=
    get_set_self _ 0x0018 0xA001 _ hcont2
  have hi2g70 : i2.get 0x0008 0x0070 = some (.str "Anonymized Manufacturer")
    := by
    rw [hi2, get_set_ne _ _ _ _ _ _ (by omega)]
    exact get_set_self i0 0x0008 0x0070 _ h70
  have hi2g80 : i2.get 0x0008 0x0080 = some (.str "Anonymized Institutename")
    := get_set_self _ 0x0008 0x0080 _ h80'
  have hget70 : getIn1 d3 0x0018 0xA001 0x0008 0x0070
      = .ok (.str "Anonymized Manufacturer") := by
    simp [getIn1, hd3A, hi2g70]
  have hget80 : getIn1 d3 0x0018 0xA001 0x0008 0x0080
      = .ok (.str "Anonymized Institutename") := by
    simp [getIn1, hd3A, hi2g80]
  simp only [get_patient_and_physician, hcont, if_true, hs1, hs2]
  by_cases h561 : d3.contains 0x0400 0x0561 = true
  · rw [if_pos h561]
    exact ⟨_, d3, _, rfl, rfl, rfl, hget70, hget80⟩
  · rw [if_neg h561]
    exact ⟨_, d3, _, rfl, rfl, rfl, hget70, hget80⟩

/-- Witness for C8 at `expoDataset`: reading the summary row leaves
the placeholders in the exposure container and returns them. -/
theorem getPP_overwrites_exposure_witness :
    ∃ row d' logs,
      get_patient_and_physician "f.dcm" expoDataset (sumWith "CT")
        = .ok (row, d', logs) ∧
      row.get? 21 = some (.str "Anonymized Manufacturer") ∧
      row.get? 22 = some (.str "Anonymized Institutename") ∧
      getIn1 d' 0x0018 0xA001 0x0008 0x0070
        = .ok (.str "Anonymized Manufacturer") ∧
      getIn1 d' 0x0018 0xA001 0x0008 0x0080
        = .ok (.str "Anonymized Institutename") :=
  getPP_overwrites_exposure "f.dcm" expoDataset (sumWith "CT")
    (.mk [.mk 0x0008 0x0070 (.str "GE MEDICAL SYSTEMS"),
          .mk 0x0008 0x0080 (.str "County Hospital")]) [] rfl rfl rfl

/-! ## Theorems: nested anonymization failure boundaries (claim C1) -/

theorem get_none_of_not_contains (d : ADataset) (g e : Nat)
    (h : d.contains g e = false) : d.get g e = none := by
  cases d with
  | mk l =>
    have heq := containsTag_eq_isSome l g e
    rw [ADataset.contains, ADataset.entries] at h
    rw [h] at heq
    rw [ADataset.get, ADataset.entries]
    cases hg : lookupTag l g e with
    | none => rfl
    | some v =>
        rw [hg] at heq
        cases heq

/-- C1 (counterexample): a classification-valid tree whose exposure
container (0018,A001) is present but malformed makes the whole
anonymization abort — `CImage.__init__` raises out of the
`except OSError` handler, nothing is logged by the engine and no
direct field is anonymized — whereas the same tree without that
container anonymizes all direct fields.  The (0018,A001) nested
targets therefore do not sit inside their own failure boundary. -/
theorem nested_manufacturer_target_aborts :
    cimageInit "in.dcm" "out.dcm" ceC1 true
      = .error "AttributeError: _list" ∧
    (match cimageInit "in.dcm" "out.dcm" ceC1woA001 true with
     | .ok st => st.data.get 0x0010 0x0010 = some (.str "Anonymized Patient")
         ∧ st.logs = []
     | .error _ => False) := by
  exact ⟨rfl, ⟨rfl, rfl⟩⟩

/-- C1 (amended): each of the six nested targets under container
(0400,0561) is attempted inside its own failure boundary: with the
container present but its first item lacking the inner (0400,0550)
container and the (0400,0564) leaf, every nested target fails, each
failure appends exactly one ERROR/EXCEPTION pair (the patient-location
target formats the result path and `EXCEPTION:`), no failure stops the
pass, and all direct fields are still anonymized — the block returns
the direct-field pass of the private-stripped tree together with
exactly six log pairs. -/
theorem nested_561_targets_isolated (path resPath : String)
    (d : ADataset) (i0 : ADataset) (items : List ADataset)
    (hA : d.contains 0x0018 0xA001 = false)
    (hC : d.get 0x0400 0x0561 = some (.seq (i0 :: items)))
    (h550 : i0.contains 0x0400 0x0550 = false)
    (h564 : i0.contains 0x0400 0x0564 = false) :
    anonymizeBlock path resPath d
      = .ok (directFieldPassTree d.removePrivate,
             [logPairStd path ("KeyError: " ++ formatTag 0x0400 0x0550),
              logPairStd path ("KeyError: " ++ formatTag 0x0400 0x0550),
              logPairStd path ("KeyError: " ++ formatTag 0x0400 0x0550),
              logPairStd path ("KeyError: " ++ formatTag 0x0400 0x0550),
              logPairRes resPath ("KeyError: " ++ formatTag 0x0400 0x0550),
              logPairStd path ("KeyError: " ++ formatTag 0x0400 0x0564)]) := by
  have hg550 : i0.get 0x0400 0x0550 = none :=
    get_none_of_not_contains i0 0x0400 0x0550 h550
  have hset2 : ∀ (tg te : Nat) (v : AVal),
      setIn2 d 0x0400 0x0561 0x0400 0x0550 tg te v
        = .error ("KeyError: " ++ formatTag 0x0400 0x0550) := by
    intro tg te v
    simp [setIn2, hC, hg550]
  have hset1 : ∀ v : AVal,
      setIn1 d 0x0400 0x0561 0x0400 0x0564 v
        = .error ("KeyError: " ++ formatTag 0x0400 0x0564) := by
    intro v
    simp [setIn1, hC, h564]
  rw [anonymizeBlock, anonymizeNested]
  simp only [hA, Bool.false_eq_true, if_false, hC, AVal.hasList, if_true,
    attemptW, hset2, hset1]
  rfl

/-- Witness for the amended C1 statement at `ds561Missing`: six log
pairs and a fully anonymized tree. -/
theorem nested_561_targets_isolated_witness :
    anonymizeBlock "in.dcm" "out.dcm" ds561Missing
      = .ok (directFieldPassTree ds561Missing.removePrivate,
             [logPairStd "in.dcm" ("KeyError: " ++ formatTag 0x0400 0x0550),
              logPairStd "in.dcm" ("KeyError: " ++ formatTag 0x0400 0x0550),
              logPairStd "in.dcm" ("KeyError: " ++ formatTag 0x0400 0x0550),
              logPairStd "in.dcm" ("KeyError: " ++ formatTag 0x0400 0x0550),
              logPairRes "out.dcm" ("KeyError: " ++ formatTag 0x0400 0x0550),
              logPairStd "in.dcm" ("KeyError: " ++ formatTag 0x0400 0x0564)])
    :=
  nested_561_targets_isolated "in.dcm" "out.dcm" ds561Missing
    (.mk [.mk 0x0400 0x0500 (.str "stub")]) [] rfl rfl rfl rfl

/-! ## Theorems: series grouping (claim C6) -/

theorem lookupGroup_setGroup_self {σ : Type}
    (m : List ((String × String) × SeriesGroup σ)) (k : String × String)
    (v : SeriesGroup σ) : lookupGroup (setGroup m k v) k = some v := by
  induction m with
  | nil => simp [setGroup, lookupGroup]
  | cons p rest ih =>
      by_cases hp : p.1 = k
      · simp [setGroup, lookupGroup, hp]
      · simp [setGroup, lookupGroup, hp, ih]

theorem lookupGroup_setGroup_ne {σ : Type}
    (m : List ((String × String) × SeriesGroup σ)) (k k' : String × String)
    (v : SeriesGroup σ) (h : ¬k' = k) :
    lookupGroup (setGroup m k' v) k = lookupGroup m k := by
  induction m with
  | nil => simp [setGroup, lookupGroup, h]
  | cons p rest ih =>
      by_cases hp : p.1 = k'
      · by_cases hpk : p.1 = k
        · exact absurd (hp.symm.trans hpk) h
        · simp [setGroup, lookupGroup, hp, hpk, h]
      · have h' : ¬k = k' := fun hh => h hh.symm
        by_cases hpk : p.1 = k
        · simp [setGroup, lookupGroup, hp, hpk, h']
        · simp [setGroup, lookupGroup, hp, hpk, ih]

theorem lookupGroup_found {σ : Type}
    (m : List ((String × String) × SeriesGroup σ)) (k : String × String)
    (gr : SeriesGroup σ) (h : lookupGroup m k = some gr) :
    ∃ p ∈ m, p.2 = gr := by
  induction m with
  | nil => cases h
  | cons p rest ih =>
      by_cases hp : p.1 = k
      · rw [lookupGroup, if_pos hp] at h
        exact ⟨p, List.mem_cons_self p rest, (Option.some.injEq _ _).mp h⟩
      · rw [lookupGroup, if_neg hp] at h
        obtain ⟨q, hq, hq2⟩ := ih h
        exact ⟨q, List.mem_cons_of_mem p hq, hq2⟩

theorem setGroup_entries_prop {σ : Type} (P : SeriesGroup σ → Prop)
    (m : List ((String × String) × SeriesGroup σ)) (k : String × String)
    (v : SeriesGroup σ) (hm : ∀ p ∈ m, P p.2) (hv : P v) :
    ∀ p ∈ setGroup m k v, P p.2 := by
  induction m with
  | nil =>
      intro p hp
      rw [setGroup] at hp
      rcases List.mem_singleton.mp hp with rfl
      exact hv
  | cons q rest ih =>
      intro p hp
      rw [setGroup] at hp
      by_cases hq : q.1 = k
      · rw [if_pos hq] at hp
        rcases List.mem_cons.mp hp with rfl | hp'
        · exact hv
        · exact hm p (List.mem_cons_of_mem q hp')
      · rw [if_neg hq] at hp
        rcases List.mem_cons.mp hp with heq | hp'
        · exact heq ▸ hm q (List.mem_cons_self q rest)
        · exact ih (fun r hr => hm r (List.mem_cons_of_mem q hr)) p hp'

theorem step_preserves_inv {σ : Type}
    (m : List ((String × String) × SeriesGroup σ)) (i : FileInput σ)
    (hm : ∀ p ∈ m, p.2.orgDCM.isSome = true) :
    ∀ p ∈ seriesDictStep m i, p.2.orgDCM.isSome = true := by
  rw [seriesDictStep]
  by_cases hv : i.valid = true
  · rw [if_pos hv]
    refine setGroup_entries_prop (fun gr => gr.orgDCM.isSome = true) m
      (groupKey i) _ hm ?_
    by_cases hn :
        ((lookupGroup m (groupKey i)).getD emptyGroup).orgDCM.isNone = true
    · rw [if_pos hn]
      rfl
    · rw [if_neg hn]
      show ((lookupGroup m (groupKey i)).getD emptyGroup).orgDCM.isSome = true
      cases ho : ((lookupGroup m (groupKey i)).getD emptyGroup).orgDCM with
      | none => exact absurd (Option.isNone_iff_eq_none.mpr ho) hn
      | some s0 => rfl
  · rw [if_neg hv]
    exact hm

theorem lookup_fold {σ : Type} (l : List (FileInput σ)) :
    ∀ (m : List ((String × String) × SeriesGroup σ)) (k : String × String),
      (∀ p ∈ m, p.2.orgDCM.isSome = true) →
      lookupGroup (l.foldl seriesDictStep m) k
        = match lookupGroup m k, l.filter (matchesKey k) with
          | some gr, fl =>
              some { gr with files := gr.files ++ fl.map FileInput.file }
          | none, [] => none
          | none, f :: fs =>
              some ⟨(f :: fs).map FileInput.file, some f.summary,
                    some f.relDir⟩ := by
  induction l with
  | nil =>
      intro m k hm
      simp only [List.foldl_nil, List.filter_nil]
      cases h : lookupGroup m k with
      | none => rfl
      | some gr => simp
  | cons i rest ih =>
      intro m k hm
      simp only [List.foldl_cons]
      rw [ih (seriesDictStep m i) k (step_preserves_inv m i hm)]
      by_cases hv : i.valid = true
      · by_cases hk : groupKey i = k
        · have hfil : matchesKey k i = true := by
            simp [matchesKey, hv, hk]
          cases hl : lookupGroup m k with
          | some gr =>
              have hgr : gr.orgDCM.isSome = true := by
                obtain ⟨p, hp, hp2⟩ := lookupGroup_found m k gr hl
                exact hp2 ▸ hm p hp
              have hnn : ((lookupGroup m (groupKey i)).getD
                  emptyGroup).orgDCM.isNone = false := by
                rw [hk, hl]
                cases ho : gr.orgDCM with
                | none => rw [ho] at hgr; cases hgr
                | some s0 => simp [Option.getD, ho]
              have hstep : lookupGroup (seriesDictStep m i) k
                  = some { gr with files := gr.files ++ [i.file] } := by
                rw [seriesDictStep, if_pos hv, hk, hl]
                rw [hk, hl] at hnn
                simp only [Option.getD_some] at hnn ⊢
                rw [hnn]
                simp only [Bool.false_eq_true, if_false]
                exact lookupGroup_setGroup_self m k _
              rw [hstep, List.filter_cons_of_pos hfil]
              simp [List.append_assoc]
          | none =>
              have hstep : lookupGroup (seriesDictStep m i) k
                  = some ⟨[i.file], some i.summary, some i.relDir⟩ := by
                rw [seriesDictStep, if_pos hv, hk, hl]
                simp only [Option.getD_none]
                rw [show (emptyGroup : SeriesGroup σ).orgDCM.isNone = true
                      from rfl]
                simp only [if_true]
                have := lookupGroup_setGroup_self m k
                  (⟨(emptyGroup : SeriesGroup σ).files ++ [i.file],
                    some i.summary, some i.relDir⟩ : SeriesGroup σ)
                simpa [emptyGroup] using this
              rw [hstep, List.filter_cons_of_pos hfil]
              simp
        · have hfil : matchesKey k i = false := by
            simp [matchesKey, hk]
          have hstep : lookupGroup (seriesDictStep m i) k = lookupGroup m k
            := by
            rw [seriesDictStep, if_pos hv]
            exact lookupGroup_setGroup_ne m k (groupKey i) _ hk
          rw [hstep, List.filter_cons_of_neg (by simp [hfil])]
      · have hfil : matchesKey k i = false := by
          simp [matchesKey, hv]
        have hstep : seriesDictStep m i = m := by
          rw [seriesDictStep, if_neg hv]
        rw [hstep, List.filter_cons_of_neg (by simp [hfil])]

/-- C6: series grouping retains exactly one representative per
(patientIdentifier, seriesIdentifier) key — the summary of the first
valid file seen for that key — and every later file mapping to the
same key only appends its path to the member list, never replacing the
representative: the group under key `k` holds the file paths of all
valid inputs keyed `k` in processing order, with the first one's
summary and relative path. -/
theorem grouping_first_valid_wins {σ : Type} (l : List (FileInput σ))
    (k : String × String) :
    lookupGroup (parse_study_groups l) k
      = match l.filter (matchesKey k) with
        | [] => none
        | f :: fs => some ⟨(f :: fs).map FileInput.file, some f.summary,
                           some f.relDir⟩ := by
  rw [parse_study_groups,
      lookup_fold l [] k (by intro p hp; cases hp)]
  cases hf : l.filter (matchesKey k) with
  | nil => rfl
  | cons f fs => rfl

/-! ## Theorems: pseudo-identifier derivation (claim C2) -/

theorem ofNat_toNat_toUInt8 (c : Char) (h : c.val ≤ 0x7f) :
    Char.ofNat ((c.val.toUInt8).toNat) = c := by
  have h1 : c.val.toNat ≤ 127 := by
    rw [UInt32.le_def, BitVec.le_def] at h
    exact h
  have h2 : (c.val.toUInt8).toNat = c.val.toNat % 256 := by
    simp [UInt32.toUInt8, UInt8.toNat, UInt32.toNat, Nat.toUInt8,
          UInt8.ofNat, BitVec.toNat_ofNat]
  rw [h2, Nat.mod_eq_of_lt (by omega)]
  exact Char.ofNat_toNat c

theorem decode_encode_ascii (l : List Char)
    (h : ∀ c ∈ l, c.val ≤ 0x7f) :
    (l.flatMap String.utf8EncodeChar).map (fun b => Char.ofNat b.toNat)
      = l := by
  induction l with
  | nil => rfl
  | cons c cs ih =>
      have hc := h c (List.mem_cons_self c cs)
      have henc : String.utf8EncodeChar c = [c.val.toUInt8] := by
        simp [String.utf8EncodeChar, hc]
      rw [List.flatMap_cons, henc, List.singleton_append, List.map_cons,
          ofNat_toNat_toUInt8 c hc,
          ih (fun c' hc' => h c' (List.mem_cons_of_mem _ hc'))]

/-- C2 (counterexample): the derived pseudo-identifiers of the
concrete patient identifier "P1" and pair ("P1","S1") are recovered
exactly by byte decoding — the transform is plain UTF-8 byte encoding
(`(patient_id + series_uid).encode('utf-8')`) with no hashing, so the
original identifier CAN be recovered and the transform is not
one-way. -/
theorem pseudo_identifier_recoverable :
    recoverId (patid_pseudo "P1") = "P1" ∧
    recoverId (pseudo_id "P1" "S1") = "P1S1" := ⟨rfl, rfl⟩

/-- C2 (amended): pseudo-identifier derivation is deterministic —
identical inputs always yield identical outputs — but the transform is
not one-way: it is plain byte encoding, and for any patient identifier
consisting of ASCII characters the byte decoder recovers the original
identifier from the derived pseudo-identifier. -/
theorem pseudo_id_deterministic_not_one_way
    (p1 p2 s1 s2 : String) (hp : p1 = p2) (hs : s1 = s2)
    (hascii : ∀ c ∈ p1.data, c.val ≤ 0x7f) :
    pseudo_id p1 s1 = pseudo_id p2 s2 ∧
    recoverId (patid_pseudo p1) = p1 := by
  subst hp
  subst hs
  refine ⟨rfl, ?_⟩
  show decodeBytes (ByteArray.data p1.toUTF8).toList = p1
  rw [show p1.toUTF8 = ⟨⟨p1.data.flatMap String.utf8EncodeChar⟩⟩ from rfl]
  show String.mk ((p1.data.flatMap String.utf8EncodeChar).map
    (fun b => Char.ofNat b.toNat)) = p1
  rw [decode_encode_ascii p1.data hascii]

/-- Witness for the amended C2 statement at the identifiers of the
grouping scenario. -/
theorem pseudo_id_deterministic_not_one_way_witness :
    pseudo_id "P1" "S1" = pseudo_id "P1" "S1" ∧
    recoverId (patid_pseudo "P1") = "P1" :=
  pseudo_id_deterministic_not_one_way "P1" "P1" "S1" "S1" rfl rfl
    (by decide)
